import Mathlib

/-!
Verification of the `ralph-api` crate of ralph-orchestrator.

Shallow embedding of the request pipeline, idempotency store, task domain,
stream domain (event bus), planning artifact access and loop-merge domain,
translated from the Rust sources under `crates/ralph-api/src/`.

Conventions used throughout:
* `u64` counters are modelled as `Nat` with explicit saturation at `2^64 - 1`
  (the source uses `saturating_add`).
* timestamps (`now_ts()`, `Utc::now().timestamp_millis()`) are environment
  inputs; every operation that reads the clock takes them as parameters.
* `serde_json::Value` is modelled by its serialized form (a `String`): the
  verified code only stores, copies and compares parameter values for
  equality, so any type with decidable equality is a faithful model.
* filesystem and process effects (`persist`, `git`, `std::process::id`) are
  modelled as parameters or as always-succeeding writes; the in-memory state
  transitions they accompany are translated exactly.
* source messages use single quotes around interpolated values; the quote
  characters are reproduced with `sq` below.
-/

namespace RalphApi

/-- `serde_json::Value`, modelled by its canonical serialization. -/
abbrev JsonValue := String

/-- A single-quote character as a string (ASCII 39). -/
def sq : String := String.singleton (Char.ofNat 39)

/-- `u64::MAX`. -/
def u64Max : Nat := 2 ^ 64 - 1

/-- `u64::saturating_add` on the `Nat` model. -/
def satAdd64 (a b : Nat) : Nat := min (a + b) u64Max

/-! ## errors.rs -/

/-- `RpcErrorCode` (errors.rs). -/
inductive RpcErrorCode where
  | invalidRequest | methodNotFound | invalidParams | unauthorized | forbidden
  | notFound | conflict | preconditionFailed | rateLimited | timeout
  | serviceUnavailable | internal | taskNotFound | loopNotFound
  | planningSessionNotFound | collectionNotFound | configInvalid
  | idempotencyConflict | backpressureDropped
deriving DecidableEq, Repr

/-- `RpcErrorCode::as_str` (errors.rs). -/
def RpcErrorCode.as_str : RpcErrorCode → String
  | .invalidRequest => "INVALID_REQUEST"
  | .methodNotFound => "METHOD_NOT_FOUND"
  | .invalidParams => "INVALID_PARAMS"
  | .unauthorized => "UNAUTHORIZED"
  | .forbidden => "FORBIDDEN"
  | .notFound => "NOT_FOUND"
  | .conflict => "CONFLICT"
  | .preconditionFailed => "PRECONDITION_FAILED"
  | .rateLimited => "RATE_LIMITED"
  | .timeout => "TIMEOUT"
  | .serviceUnavailable => "SERVICE_UNAVAILABLE"
  | .internal => "INTERNAL"
  | .taskNotFound => "TASK_NOT_FOUND"
  | .loopNotFound => "LOOP_NOT_FOUND"
  | .planningSessionNotFound => "PLANNING_SESSION_NOT_FOUND"
  | .collectionNotFound => "COLLECTION_NOT_FOUND"
  | .configInvalid => "CONFIG_INVALID"
  | .idempotencyConflict => "IDEMPOTENCY_CONFLICT"
  | .backpressureDropped => "BACKPRESSURE_DROPPED"

/-- `status_for_code` (errors.rs): HTTP status for each error code. -/
def status_for_code : RpcErrorCode → Nat
  | .invalidRequest | .invalidParams => 400
  | .methodNotFound => 404
  | .unauthorized => 401
  | .forbidden => 403
  | .notFound | .taskNotFound | .loopNotFound
  | .planningSessionNotFound | .collectionNotFound => 404
  | .conflict | .idempotencyConflict => 409
  | .preconditionFailed => 412
  | .rateLimited => 429
  | .timeout => 408
  | .serviceUnavailable | .backpressureDropped => 503
  | .configInvalid => 400
  | .internal => 500

/-- `ApiError` (errors.rs). -/
structure ApiError where
  code : RpcErrorCode
  message : String
  retryable : Bool
  details : Option JsonValue
  status : Nat
  requestId : String
  method : Option String
deriving DecidableEq, Repr

/-- `ApiError::new` (errors.rs). -/
def ApiError.new (code : RpcErrorCode) (message : String) : ApiError :=
  { status := status_for_code code
    code := code
    message := message
    retryable :=
      code = .rateLimited ∨ code = .timeout ∨ code = .serviceUnavailable ∨
        code = .backpressureDropped
    details := none
    requestId := "unknown"
    method := none }

/-- `ApiError::with_context` (errors.rs). -/
def ApiError.with_context (e : ApiError) (requestId : String)
    (method : Option String) : ApiError :=
  { e with requestId := requestId, method := method }

/-- `ApiError::with_details` (errors.rs). -/
def ApiError.with_details (e : ApiError) (details : JsonValue) : ApiError :=
  { e with details := some details }

/-- `ApiError::invalid_params` (errors.rs). -/
def ApiError.invalid_params (message : String) : ApiError :=
  ApiError.new .invalidParams message

/-- `ApiError::conflict` (errors.rs). -/
def ApiError.conflict (message : String) : ApiError :=
  ApiError.new .conflict message

/-- `ApiError.not_found` (errors.rs). -/
def ApiError.not_found (message : String) : ApiError :=
  ApiError.new .notFound message

/-- `ApiError::precondition_failed` (errors.rs). -/
def ApiError.precondition_failed (message : String) : ApiError :=
  ApiError.new .preconditionFailed message

/-- `ApiError::task_not_found` (errors.rs). -/
def ApiError.task_not_found (message : String) : ApiError :=
  ApiError.new .taskNotFound message

/-- `ApiError::loop_not_found` (errors.rs). -/
def ApiError.loop_not_found (message : String) : ApiError :=
  ApiError.new .loopNotFound message

/-- `ApiError::planning_session_not_found` (errors.rs). -/
def ApiError.planning_session_not_found (message : String) : ApiError :=
  ApiError.new .planningSessionNotFound message

/-- `ApiError::idempotency_conflict` (errors.rs). -/
def ApiError.idempotency_conflict (message : String) : ApiError :=
  ApiError.new .idempotencyConflict message

/-! ## task_domain.rs : data model -/

/-- `TaskRecord` (task_domain.rs). Timestamps are RFC3339 strings. -/
structure TaskRecord where
  id : String
  title : String
  status : String
  priority : Nat
  blockedBy : Option String
  archivedAt : Option String
  queuedTaskId : Option String
  mergeLoopPrompt : Option String
  createdAt : String
  updatedAt : String
  completedAt : Option String
  errorMessage : Option String
deriving DecidableEq, Repr

/-- `TaskCreateParams` (task_domain.rs). -/
structure TaskCreateParams where
  id : String
  title : String
  status : Option String
  priority : Option Nat
  blockedBy : Option String
  autoExecute : Option Bool
  mergeLoopPrompt : Option String
deriving DecidableEq, Repr

/-- `TaskUpdateInput` (task_domain.rs). -/
structure TaskUpdateInput where
  id : String
  title : Option String
  status : Option String
  priority : Option Nat
  blockedBy : Option (Option String)
deriving DecidableEq, Repr

/-- `TaskRunResult` (task_domain.rs). -/
structure TaskRunResult where
  success : Bool
  queuedTaskId : String
  task : Option TaskRecord
deriving DecidableEq, Repr

/-- `TaskRunAllResult` (task_domain.rs). -/
structure TaskRunAllResult where
  enqueued : Nat
  errors : List String
deriving DecidableEq, Repr

/-- `TaskStatusResult` (task_domain.rs). -/
structure TaskStatusResult where
  isQueued : Bool
  queuePosition : Option Nat
  runnerPid : Option Nat
deriving DecidableEq, Repr

/-- The in-memory state of `TaskDomain` (task_domain.rs): a `BTreeMap` of
tasks keyed by id (modelled as an association list kept sorted by key) and
the `u64` queue counter.  The snapshot path is filesystem state and is not
modelled; `persist` is treated as an always-succeeding write. -/
structure TaskDomain where
  tasks : List (String × TaskRecord)
  queueCounter : Nat
deriving DecidableEq, Repr

/-- The task domain right after `TaskDomain::new` on a fresh workspace. -/
def TaskDomain.empty : TaskDomain := { tasks := [], queueCounter := 0 }

/-- `BTreeMap::get`, on the sorted association list. -/
def mapFind (m : List (String × TaskRecord)) (id : String) : Option TaskRecord :=
  (m.find? (fun kv => kv.1 == id)).map (·.2)

/-- `BTreeMap::insert`: replaces an existing binding in place, otherwise
inserts at the key-ordered position. -/
def mapInsert : List (String × TaskRecord) → String → TaskRecord →
    List (String × TaskRecord)
  | [], id, r => [(id, r)]
  | (k, v) :: rest, id, r =>
    if id = k then (k, r) :: rest
    else if id < k then (id, r) :: (k, v) :: rest
    else (k, v) :: mapInsert rest id r

/-- In-place update through `BTreeMap::get_mut`: apply `f` to the binding of
`id`, leave every other binding unchanged. -/
def mapModify (m : List (String × TaskRecord)) (id : String)
    (f : TaskRecord → TaskRecord) : List (String × TaskRecord) :=
  m.map (fun kv => if kv.1 == id then (kv.1, f kv.2) else kv)

/-- `BTreeMap::remove`. -/
def mapErase (m : List (String × TaskRecord)) (id : String) :
    List (String × TaskRecord) :=
  m.filter (fun kv => kv.1 != id)

/-- `is_terminal_status` (task_domain.rs). -/
def is_terminal_status (status : String) : Bool :=
  status == "closed" || status == "failed"

/-- `task_not_found_error` (task_domain.rs); the `details` JSON is kept as
its serialized text. -/
def task_not_found_error (taskId : String) : ApiError :=
  (ApiError.task_not_found
      ("Task with id " ++ sq ++ taskId ++ sq ++ " not found")).with_details
    ("taskId:" ++ taskId)

/-- `priority.clamp(1, 5)` on a `u8` value. -/
def clampPriority (p : Nat) : Nat :=
  if p < 1 then 1 else if p > 5 then 5 else p

/-! ### decimal and hexadecimal rendering (for `format!` output) -/

/-- The ASCII digit character for `d < 10`. -/
def digitChar (d : Nat) : Char := Char.ofNat (48 + d)

/-- Decimal digit list of a natural number, as produced by `format!`. -/
def natToDigits (n : Nat) : List Char :=
  if _h : n < 10 then [digitChar n]
  else natToDigits (n / 10) ++ [digitChar (n % 10)]
decreasing_by exact Nat.div_lt_self (by omega) (by omega)

/-- Decimal rendering of a natural number. -/
def natRepr (n : Nat) : String := ⟨natToDigits n⟩

/-- Lowercase hex digit character for `d < 16`. -/
def hexDigitChar (d : Nat) : Char :=
  if d < 10 then Char.ofNat (48 + d) else Char.ofNat (87 + d)

/-- Hexadecimal digit list of a natural number. -/
def natToHexDigits (n : Nat) : List Char :=
  if _h : n < 16 then [hexDigitChar n]
  else natToHexDigits (n / 16) ++ [hexDigitChar (n % 16)]
decreasing_by exact Nat.div_lt_self (by omega) (by omega)

/-- `format!("{:04x}", n)`: lowercase hex, zero-padded to width 4. -/
def hex4 (n : Nat) : String :=
  let ds := natToHexDigits n
  ⟨List.replicate (4 - ds.length) (Char.ofNat 48) ++ ds⟩

/-! ## task_domain.rs : operations

Every operation returns its `Result` together with the post-state, so the
partial mutations performed before an error is returned (e.g. the queue
counter bump in `queue_task`, or the field resets in `retry` before `run`
fails) are captured faithfully.  `now` stands for the value of `now_ts()`
during the operation and `millis` for `Utc::now().timestamp_millis()`. -/

/-- `TaskDomain::get`. -/
def TaskDomain.get (st : TaskDomain) (id : String) : Except ApiError TaskRecord :=
  match mapFind st.tasks id with
  | some t => .ok t
  | none => .error (task_not_found_error id)

/-- `TaskDomain::next_queued_task_id`. -/
def next_queued_task_id (st : TaskDomain) (millis : Nat) : String × TaskDomain :=
  let c := satAdd64 st.queueCounter 1
  ("queued-" ++ natRepr millis ++ "-" ++ hex4 c, { st with queueCounter := c })

/-- `TaskDomain::queue_task`. -/
def queue_task (st : TaskDomain) (id : String) (now : String) (millis : Nat) :
    Except ApiError String × TaskDomain :=
  let (queuedTaskId, st₁) := next_queued_task_id st millis
  match mapFind st₁.tasks id with
  | none => (.error (task_not_found_error id), st₁)
  | some task =>
    if task.archivedAt.isSome then
      (.error ((ApiError.precondition_failed "Cannot run archived task").with_details
          ("taskId:" ++ id)), st₁)
    else if task.status == "pending" || task.status == "running" then
      (.error ((ApiError.precondition_failed
            "Task is already queued or running").with_details
          ("taskId:" ++ id ++ ",status:" ++ task.status)), st₁)
    else
      (.ok queuedTaskId,
        { st₁ with tasks := mapModify st₁.tasks id (fun t =>
            { t with status := "pending", queuedTaskId := some queuedTaskId,
                     completedAt := none, errorMessage := none, updatedAt := now }) })

/-- `TaskDomain::run`. -/
def TaskDomain.run (st : TaskDomain) (id : String) (now : String) (millis : Nat) :
    Except ApiError TaskRunResult × TaskDomain :=
  match queue_task st id now millis with
  | (.error e, st₁) => (.error e, st₁)
  | (.ok qid, st₁) =>
    match st₁.get id with
    | .error e => (.error e, st₁)
    | .ok task => (.ok ⟨true, qid, some task⟩, st₁)

/-- `TaskDomain::create`. -/
def TaskDomain.create (st : TaskDomain) (params : TaskCreateParams)
    (now : String) (millis : Nat) : Except ApiError TaskRecord × TaskDomain :=
  if (mapFind st.tasks params.id).isSome then
    (.error ((ApiError.conflict
          ("Task with id " ++ sq ++ params.id ++ sq ++ " already exists")).with_details
        ("taskId:" ++ params.id)), st)
  else
    let requestedStatus := params.status.getD "open"
    let autoExecute := params.autoExecute.getD true
    if autoExecute && requestedStatus != "open" then
      (.error ((ApiError.invalid_params
            ("task.create autoExecute=true is only valid when status is " ++
              sq ++ "open" ++ sq)).with_details
          ("taskId:" ++ params.id ++ ",status:" ++ requestedStatus)), st)
    else
      let task : TaskRecord :=
        { id := params.id
          title := params.title
          status := requestedStatus
          priority := clampPriority (params.priority.getD 2)
          blockedBy := params.blockedBy
          archivedAt := none
          queuedTaskId := none
          mergeLoopPrompt := params.mergeLoopPrompt
          createdAt := now
          updatedAt := now
          completedAt := if is_terminal_status requestedStatus then some now else none
          errorMessage := none }
      let st₁ := { st with tasks := mapInsert st.tasks params.id task }
      let shouldAutoExecute := autoExecute &&
        (match mapFind st₁.tasks params.id with
         | some t => t.blockedBy.isNone && t.status == "open"
         | none => false)
      if shouldAutoExecute then
        match st₁.run params.id now millis with
        | (.error e, st₂) => (.error e, st₂)
        | (.ok _, st₂) =>
          match st₂.get params.id with
          | .ok t => (.ok t, st₂)
          | .error e => (.error e, st₂)
      else
        match st₁.get params.id with
        | .ok t => (.ok t, st₁)
        | .error e => (.error e, st₁)

/-- The in-place record update performed by `TaskDomain::update` on the task
found via `get_mut` (task_domain.rs lines 211-238). -/
def applyTaskUpdate (input : TaskUpdateInput) (now : String)
    (task : TaskRecord) : TaskRecord :=
  let task := match input.title with
    | some t => { task with title := t }
    | none => task
  let task := match input.status with
    | some s =>
      let task := { task with status := s }
      let task :=
        if is_terminal_status task.status then
          { task with completedAt := some now, queuedTaskId := none }
        else
          let task := { task with completedAt := none }
          if task.status == "pending" || task.status == "running" then task
          else { task with queuedTaskId := none }
      if task.status != "failed" then { task with errorMessage := none } else task
    | none => task
  let task := match input.priority with
    | some p => { task with priority := clampPriority p }
    | none => task
  let task := match input.blockedBy with
    | some b => { task with blockedBy := b }
    | none => task
  { task with updatedAt := now }

/-- `TaskDomain::update`. -/
def TaskDomain.update (st : TaskDomain) (input : TaskUpdateInput)
    (now : String) : Except ApiError TaskRecord × TaskDomain :=
  match mapFind st.tasks input.id with
  | none => (.error (task_not_found_error input.id), st)
  | some _ =>
    let st₁ := { st with tasks := mapModify st.tasks input.id (applyTaskUpdate input now) }
    match st₁.get input.id with
    | .ok t => (.ok t, st₁)
    | .error e => (.error e, st₁)

/-- The in-place record update performed by `TaskDomain::transition_task`. -/
def applyTransition (status : String) (now : String) (task : TaskRecord) :
    TaskRecord :=
  let task := { task with status := status, updatedAt := now }
  let task :=
    if is_terminal_status status then
      { task with completedAt := some now, queuedTaskId := none }
    else
      let task := { task with completedAt := none }
      if status == "pending" || status == "running" then task
      else { task with queuedTaskId := none }
  if status != "failed" then { task with errorMessage := none } else task

/-- `TaskDomain::transition_task`. -/
def transition_task (st : TaskDomain) (id status : String) (now : String) :
    Except ApiError TaskRecord × TaskDomain :=
  match mapFind st.tasks id with
  | none => (.error (task_not_found_error id), st)
  | some _ =>
    let st₁ := { st with tasks := mapModify st.tasks id (applyTransition status now) }
    match st₁.get id with
    | .ok t => (.ok t, st₁)
    | .error e => (.error e, st₁)

/-- `TaskDomain::close`. -/
def TaskDomain.close (st : TaskDomain) (id : String) (now : String) :
    Except ApiError TaskRecord × TaskDomain :=
  transition_task st id "closed" now

/-- `TaskDomain::archive` (the two `now_ts()` reads are modelled as one). -/
def TaskDomain.archive (st : TaskDomain) (id : String) (now : String) :
    Except ApiError TaskRecord × TaskDomain :=
  match mapFind st.tasks id with
  | none => (.error (task_not_found_error id), st)
  | some _ =>
    let st₁ := { st with tasks := mapModify st.tasks id (fun t =>
        { t with archivedAt := some now, updatedAt := now }) }
    match st₁.get id with
    | .ok t => (.ok t, st₁)
    | .error e => (.error e, st₁)

/-- `TaskDomain::unarchive`. -/
def TaskDomain.unarchive (st : TaskDomain) (id : String) (now : String) :
    Except ApiError TaskRecord × TaskDomain :=
  match mapFind st.tasks id with
  | none => (.error (task_not_found_error id), st)
  | some _ =>
    let st₁ := { st with tasks := mapModify st.tasks id (fun t =>
        { t with archivedAt := none, updatedAt := now }) }
    match st₁.get id with
    | .ok t => (.ok t, st₁)
    | .error e => (.error e, st₁)

/-- `TaskDomain::delete`. -/
def TaskDomain.delete (st : TaskDomain) (id : String) :
    Except ApiError Unit × TaskDomain :=
  match mapFind st.tasks id with
  | none => (.error (task_not_found_error id), st)
  | some task =>
    if !(task.status == "failed" || task.status == "closed") then
      (.error ((ApiError.precondition_failed
            ("Cannot delete task in " ++ sq ++ task.status ++ sq ++
              " state. Only failed or closed tasks can be deleted.")).with_details
          ("taskId:" ++ id ++ ",status:" ++ task.status)), st)
    else
      (.ok (), { st with tasks := mapErase st.tasks id })

/-- `TaskDomain::clear`. -/
def TaskDomain.clear (st : TaskDomain) : Except ApiError Unit × TaskDomain :=
  (.ok (), { st with tasks := [] })

/-- `TaskDomain::retry`. -/
def TaskDomain.retry (st : TaskDomain) (id : String) (now : String)
    (millis : Nat) : Except ApiError TaskRunResult × TaskDomain :=
  match mapFind st.tasks id with
  | none => (.error (task_not_found_error id), st)
  | some task =>
    if task.status != "failed" then
      (.error ((ApiError.precondition_failed
            "Only failed tasks can be retried").with_details
          ("taskId:" ++ id ++ ",status:" ++ task.status)), st)
    else
      let st₁ := { st with tasks := mapModify st.tasks id (fun t =>
          { t with status := "open", queuedTaskId := none, completedAt := none,
                   errorMessage := none, updatedAt := now }) }
      st₁.run id now millis

/-- `TaskDomain::cancel`. -/
def TaskDomain.cancel (st : TaskDomain) (id : String) (now : String) :
    Except ApiError TaskRecord × TaskDomain :=
  match mapFind st.tasks id with
  | none => (.error (task_not_found_error id), st)
  | some task =>
    if !(task.status == "pending" || task.status == "running") then
      (.error ((ApiError.precondition_failed
            "Only running or pending tasks can be cancelled").with_details
          ("taskId:" ++ id ++ ",status:" ++ task.status)), st)
    else
      let st₁ := { st with tasks := mapModify st.tasks id (fun t =>
          { t with status := "failed", completedAt := some now, updatedAt := now,
                   errorMessage := some "Task cancelled by user",
                   queuedTaskId := none }) }
      match st₁.get id with
      | .ok t => (.ok t, st₁)
      | .error e => (.error e, st₁)

/-- `TaskDomain::unblocking_ids`: ids of tasks that are closed or archived. -/
def unblocking_ids (st : TaskDomain) : List String :=
  ((st.tasks.map (·.2)).filter (fun t =>
      t.status == "closed" || t.archivedAt.isSome)).map (·.id)

/-- The filter applied by `TaskDomain::ready` before sorting. -/
def readyFilter (st : TaskDomain) : List TaskRecord :=
  (st.tasks.map (·.2)).filter (fun task =>
    task.status == "open" && task.archivedAt.isNone &&
      (match task.blockedBy with
       | none => true
       | some blockerId => (unblocking_ids st).contains blockerId))

/-- `TaskDomain::ready`: filter then sort by `createdAt` ascending (Rust's
stable `sort_by` is modelled by insertion sort, which is also stable). -/
def TaskDomain.ready (st : TaskDomain) : List TaskRecord :=
  List.insertionSort (fun a b => a.createdAt ≤ b.createdAt) (readyFilter st)

/-- `TaskDomain::run_all`. -/
def TaskDomain.run_all (st : TaskDomain) (now : String) (millis : Nat) :
    TaskRunAllResult × TaskDomain :=
  let readyTaskIds := st.ready.map (·.id)
  readyTaskIds.foldl
    (fun acc taskId =>
      match queue_task acc.2 taskId now millis with
      | (.ok _, st') => (⟨satAdd64 acc.1.enqueued 1, acc.1.errors⟩, st')
      | (.error e, st') =>
        (⟨acc.1.enqueued, acc.1.errors ++ [taskId ++ ": " ++ e.message]⟩, st'))
    (⟨0, []⟩, st)

/-- `TaskDomain::queue_position`. -/
def queue_position (st : TaskDomain) (id : String) : Option Nat :=
  let queued := (st.tasks.map (·.2)).filter (fun t =>
    t.queuedTaskId.isSome && (t.status == "pending" || t.status == "running"))
  let queued := List.insertionSort (fun a b => a.updatedAt ≤ b.updatedAt) queued
  queued.findIdx? (fun t => t.id == id)

/-- `TaskDomain::status`; `pid` is `std::process::id()`. -/
def TaskDomain.status (st : TaskDomain) (id : String) (pid : Nat) :
    TaskStatusResult :=
  match mapFind st.tasks id with
  | none => { isQueued := false, queuePosition := none, runnerPid := none }
  | some task =>
    let isQueued := task.queuedTaskId.isSome &&
      (task.status == "pending" || task.status == "running")
    let queuePosition := if isQueued then queue_position st id else none
    let runnerPid := if task.status == "running" then some pid else none
    { isQueued := isQueued, queuePosition := queuePosition, runnerPid := runnerPid }

/-! ## Task-domain operation traces (for the state invariant) -/

/-- One task-domain operation, with the clock values it reads. -/
inductive TaskOp where
  | create (params : TaskCreateParams) (now : String) (millis : Nat)
  | update (input : TaskUpdateInput) (now : String)
  | close (id : String) (now : String)
  | archive (id : String) (now : String)
  | unarchive (id : String) (now : String)
  | run (id : String) (now : String) (millis : Nat)
  | runAll (now : String) (millis : Nat)
  | retry (id : String) (now : String) (millis : Nat)
  | cancel (id : String) (now : String)
  | clear
deriving Repr

/-- The post-state of one task-domain operation (error or success). -/
def applyOp (st : TaskDomain) : TaskOp → TaskDomain
  | .create params now millis => (st.create params now millis).2
  | .update input now => (st.update input now).2
  | .close id now => (st.close id now).2
  | .archive id now => (st.archive id now).2
  | .unarchive id now => (st.unarchive id now).2
  | .run id now millis => (st.run id now millis).2
  | .runAll now millis => (st.run_all now millis).2
  | .retry id now millis => (st.retry id now millis).2
  | .cancel id now => (st.cancel id now).2
  | .clear => st.clear.2

/-- State reached from the fresh domain by a sequence of operations. -/
def runOps (ops : List TaskOp) : TaskDomain :=
  ops.foldl applyOp TaskDomain.empty

/-- The per-task state invariant maintained by the code: `errorMessage` only
on failed tasks, `completedAt` exactly on terminal tasks, `queuedTaskId`
only on pending/running tasks, priority clamped to `1..=5`. -/
def TaskInv (t : TaskRecord) : Prop :=
  (t.errorMessage.isSome → t.status = "failed") ∧
  (t.completedAt.isSome ↔ (t.status = "closed" ∨ t.status = "failed")) ∧
  (t.queuedTaskId.isSome → (t.status = "pending" ∨ t.status = "running")) ∧
  1 ≤ t.priority ∧ t.priority ≤ 5

instance (t : TaskRecord) : Decidable (TaskInv t) := by
  unfold TaskInv; infer_instance

/-- The invariant claimed by the specification, with the biconditional
`status ∈ {pending,running} ⇔ queuedTaskId set`. -/
def TaskInvClaimed (t : TaskRecord) : Prop :=
  (t.errorMessage.isSome → t.status = "failed") ∧
  (t.completedAt.isSome ↔ (t.status = "closed" ∨ t.status = "failed")) ∧
  (t.queuedTaskId.isSome ↔ (t.status = "pending" ∨ t.status = "running")) ∧
  1 ≤ t.priority ∧ t.priority ≤ 5

instance (t : TaskRecord) : Decidable (TaskInvClaimed t) := by
  unfold TaskInvClaimed; infer_instance

/-- Every stored task satisfies the invariant. -/
def DomainInv (st : TaskDomain) : Prop :=
  ∀ kv ∈ st.tasks, TaskInv kv.2

/-- Every stored task satisfies the spec's claimed invariant. -/
def DomainInvClaimed (st : TaskDomain) : Prop :=
  ∀ kv ∈ st.tasks, TaskInvClaimed kv.2

instance (st : TaskDomain) : Decidable (DomainInv st) := by
  unfold DomainInv; infer_instance

instance (st : TaskDomain) : Decidable (DomainInvClaimed st) := by
  unfold DomainInvClaimed; infer_instance

/-! ## Task-domain invariant lemmas -/

theorem is_terminal_status_eq_true {s : String} :
    is_terminal_status s = true ↔ (s = "closed" ∨ s = "failed") := by
  simp [is_terminal_status]

theorem clampPriority_ge (p : Nat) : 1 ≤ clampPriority p := by
  unfold clampPriority; split_ifs <;> omega

theorem clampPriority_le (p : Nat) : clampPriority p ≤ 5 := by
  unfold clampPriority; split_ifs <;> omega

theorem inv_mapModify (m : List (String × TaskRecord)) (i : String)
    (f : TaskRecord → TaskRecord) (h : ∀ kv ∈ m, TaskInv kv.2)
    (hf : ∀ t, TaskInv t → TaskInv (f t)) :
    ∀ kv ∈ mapModify m i f, TaskInv kv.2 := by
  intro kv hkv
  rcases List.mem_map.mp hkv with ⟨kv₀, h₀, hEq⟩
  split at hEq <;> subst hEq
  · exact hf _ (h _ h₀)
  · exact h _ h₀

theorem inv_mapInsert {m : List (String × TaskRecord)} {id : String}
    {r : TaskRecord} (h : ∀ kv ∈ m, TaskInv kv.2) (hr : TaskInv r) :
    ∀ kv ∈ mapInsert m id r, TaskInv kv.2 := by
  induction m with
  | nil =>
    intro kv hkv
    simp only [mapInsert, List.mem_singleton] at hkv
    subst hkv; exact hr
  | cons head tail ih =>
    obtain ⟨k, v⟩ := head
    intro kv hkv
    have htail : ∀ kv ∈ tail, TaskInv kv.2 := fun kv hkv => h kv (List.mem_cons_of_mem _ hkv)
    unfold mapInsert at hkv
    split at hkv
    · rcases List.mem_cons.mp hkv with hEq | hmem
      · subst hEq; exact hr
      · exact htail _ hmem
    · split at hkv
      · rcases List.mem_cons.mp hkv with hEq | hmem
        · subst hEq; exact hr
        · exact h _ hmem
      · rcases List.mem_cons.mp hkv with hEq | hmem
        · subst hEq; exact h _ (List.mem_cons_self _ _)
        · exact ih htail _ hmem

theorem taskInv_queue_update {t : TaskRecord} (h : TaskInv t)
    (qid : Option String) (now : String) :
    TaskInv { t with status := "pending", queuedTaskId := qid,
                     completedAt := none, errorMessage := none,
                     updatedAt := now } := by
  obtain ⟨-, -, -, hp1, hp5⟩ := h
  refine ⟨by simp, by simp, by simp, hp1, hp5⟩

theorem taskInv_retry_reset {t : TaskRecord} (h : TaskInv t) (now : String) :
    TaskInv { t with status := "open", queuedTaskId := none,
                     completedAt := none, errorMessage := none,
                     updatedAt := now } := by
  obtain ⟨-, -, -, hp1, hp5⟩ := h
  refine ⟨by simp, by simp, by simp, hp1, hp5⟩

theorem taskInv_cancel_update {t : TaskRecord} (h : TaskInv t) (now : String) :
    TaskInv { t with status := "failed", completedAt := some now,
                     updatedAt := now,
                     errorMessage := some "Task cancelled by user",
                     queuedTaskId := none } := by
  obtain ⟨-, -, -, hp1, hp5⟩ := h
  refine ⟨by simp, by simp, by simp, hp1, hp5⟩

theorem taskInv_applyTransition {t : TaskRecord} (h : TaskInv t)
    (s now : String) : TaskInv (applyTransition s now t) := by
  obtain ⟨he, hc, hq, hp1, hp5⟩ := h
  by_cases h1 : s = "closed" <;> by_cases h2 : s = "failed" <;>
    by_cases h3 : s = "pending" <;> by_cases h4 : s = "running" <;>
    simp_all [applyTransition, is_terminal_status, TaskInv]

/-- The status-patch core of `TaskDomain::update` preserves the invariant
(it recomputes `completedAt`, `queuedTaskId` and `errorMessage`). -/
theorem taskInv_updateStatusCore {t : TaskRecord} (h : TaskInv t)
    (s now : String) :
    TaskInv
      (let t₁ : TaskRecord := { t with status := s }
       let t₂ :=
         if is_terminal_status t₁.status then
           { t₁ with completedAt := some now, queuedTaskId := none }
         else
           let t₁' := { t₁ with completedAt := none }
           if t₁'.status == "pending" || t₁'.status == "running" then t₁'
           else { t₁' with queuedTaskId := none }
       if t₂.status != "failed" then { t₂ with errorMessage := none } else t₂) := by
  obtain ⟨he, hc, hq, hp1, hp5⟩ := h
  by_cases h1 : s = "closed" <;> by_cases h2 : s = "failed" <;>
    by_cases h3 : s = "pending" <;> by_cases h4 : s = "running" <;>
    simp_all [is_terminal_status, TaskInv]

theorem taskInv_applyTaskUpdate {t : TaskRecord} (h : TaskInv t)
    (input : TaskUpdateInput) (now : String) :
    TaskInv (applyTaskUpdate input now t) := by
  unfold applyTaskUpdate
  have step₁ : ∀ t' : TaskRecord, TaskInv t' →
      TaskInv (match input.title with
               | some ti => { t' with title := ti }
               | none => t') := by
    intro t' h'
    cases input.title with
    | some ti => exact ⟨h'.1, h'.2.1, h'.2.2.1, h'.2.2.2⟩
    | none => exact h'
  have step₂ : ∀ t' : TaskRecord, TaskInv t' →
      TaskInv (match input.priority with
               | some p => { t' with priority := clampPriority p }
               | none => t') := by
    intro t' h'
    cases input.priority with
    | some p => exact ⟨h'.1, h'.2.1, h'.2.2.1, clampPriority_ge p, clampPriority_le p⟩
    | none => exact h'
  have step₃ : ∀ t' : TaskRecord, TaskInv t' →
      TaskInv (match input.blockedBy with
               | some b => { t' with blockedBy := b }
               | none => t') := by
    intro t' h'
    cases input.blockedBy with
    | some b => exact ⟨h'.1, h'.2.1, h'.2.2.1, h'.2.2.2⟩
    | none => exact h'
  have stepStatus : ∀ t' : TaskRecord, TaskInv t' →
      TaskInv (match input.status with
               | some s =>
                 let t₁ : TaskRecord := { t' with status := s }
                 let t₂ :=
                   if is_terminal_status t₁.status then
                     { t₁ with completedAt := some now, queuedTaskId := none }
                   else
                     let t₁' := { t₁ with completedAt := none }
                     if t₁'.status == "pending" || t₁'.status == "running" then t₁'
                     else { t₁' with queuedTaskId := none }
                 if t₂.status != "failed" then { t₂ with errorMessage := none } else t₂
               | none => t') := by
    intro t' h'
    cases input.status with
    | some s => exact taskInv_updateStatusCore h' s now
    | none => exact h'
  have hfinal : ∀ t' : TaskRecord, TaskInv t' →
      TaskInv { t' with updatedAt := now } := by
    intro t' h'
    exact ⟨h'.1, h'.2.1, h'.2.2.1, h'.2.2.2⟩
  exact hfinal _ (step₃ _ (step₂ _ (stepStatus _ (step₁ _ h))))

theorem taskInv_new_record (idv title rs : String) (p : Nat)
    (bb mp : Option String) (now : String) :
    TaskInv { id := idv, title := title, status := rs,
              priority := clampPriority p, blockedBy := bb, archivedAt := none,
              queuedTaskId := none, mergeLoopPrompt := mp, createdAt := now,
              updatedAt := now,
              completedAt := if is_terminal_status rs then some now else none,
              errorMessage := none } := by
  refine ⟨by simp, ?_, by simp, clampPriority_ge p, clampPriority_le p⟩
  by_cases hterm : is_terminal_status rs = true
  · simp only [hterm, if_true]
    simp [is_terminal_status_eq_true.mp hterm]
  · have hn : ¬(rs = "closed" ∨ rs = "failed") :=
      fun hc => hterm (is_terminal_status_eq_true.mpr hc)
    simp [hterm, hn]

theorem inv_queue_task {st : TaskDomain} (h : DomainInv st) (id now : String)
    (millis : Nat) : DomainInv (queue_task st id now millis).2 := by
  unfold queue_task next_queued_task_id
  simp only []
  split
  · exact h
  · split
    · exact h
    · split
      · exact h
      · exact fun kv hkv =>
          inv_mapModify _ _ _ h (fun t ht => taskInv_queue_update ht _ now) kv hkv

theorem inv_run {st : TaskDomain} (h : DomainInv st) (id now : String)
    (millis : Nat) : DomainInv (st.run id now millis).2 := by
  unfold TaskDomain.run
  have hq := inv_queue_task h id now millis
  split
  case _ e st₁ heq => rw [heq] at hq; exact hq
  case _ qid st₁ heq =>
    split <;> (rw [heq] at hq; exact hq)

theorem inv_create_tail {st₁ : TaskDomain} (h₁ : DomainInv st₁) (cond : Bool)
    (id now : String) (millis : Nat) :
    DomainInv
      (if cond then
        match st₁.run id now millis with
        | (.error e, st₂) => (Except.error e, st₂)
        | (.ok _, st₂) =>
          match st₂.get id with
          | .ok t => (Except.ok t, st₂)
          | .error e => (Except.error e, st₂)
      else
        match st₁.get id with
        | .ok t => (Except.ok t, st₁)
        | .error e => (Except.error e, st₁)).2 := by
  split
  · have hr := inv_run h₁ id now millis
    split
    case _ heq => rw [heq] at hr; exact hr
    case _ heq => split <;> (rw [heq] at hr; exact hr)
  · split <;> exact h₁

theorem inv_create {st : TaskDomain} (h : DomainInv st)
    (params : TaskCreateParams) (now : String) (millis : Nat) :
    DomainInv (st.create params now millis).2 := by
  unfold TaskDomain.create
  split
  · exact h
  · dsimp only
    split
    · exact h
    · have h₁ : DomainInv { st with
          tasks := mapInsert st.tasks params.id
            { id := params.id, title := params.title,
              status := params.status.getD "open",
              priority := clampPriority ((params.priority).getD 2),
              blockedBy := params.blockedBy, archivedAt := none,
              queuedTaskId := none, mergeLoopPrompt := params.mergeLoopPrompt,
              createdAt := now, updatedAt := now,
              completedAt :=
                if is_terminal_status (params.status.getD "open") then some now
                else none,
              errorMessage := none } } :=
        fun kv hkv =>
          inv_mapInsert h
            (taskInv_new_record params.id params.title (params.status.getD "open")
              ((params.priority).getD 2) params.blockedBy params.mergeLoopPrompt now)
            kv hkv
      exact inv_create_tail h₁ _ params.id now millis

theorem inv_update {st : TaskDomain} (h : DomainInv st)
    (input : TaskUpdateInput) (now : String) :
    DomainInv (st.update input now).2 := by
  unfold TaskDomain.update
  split
  · exact h
  · dsimp only
    split <;>
      exact fun kv hkv =>
        inv_mapModify _ _ _ h (fun t ht => taskInv_applyTaskUpdate ht input now) kv hkv

theorem inv_transition {st : TaskDomain} (h : DomainInv st)
    (id s now : String) : DomainInv (transition_task st id s now).2 := by
  unfold transition_task
  split
  · exact h
  · dsimp only
    split <;>
      exact fun kv hkv =>
        inv_mapModify _ _ _ h (fun t ht => taskInv_applyTransition ht s now) kv hkv

theorem inv_close {st : TaskDomain} (h : DomainInv st) (id now : String) :
    DomainInv (st.close id now).2 :=
  inv_transition h id "closed" now

theorem inv_archive {st : TaskDomain} (h : DomainInv st) (id now : String) :
    DomainInv (st.archive id now).2 := by
  unfold TaskDomain.archive
  split
  · exact h
  · dsimp only
    split
    all_goals
      intro kv hkv
      refine inv_mapModify st.tasks id
        (fun t => { t with archivedAt := some now, updatedAt := now }) h
        (fun t ht => ⟨ht.1, ht.2.1, ht.2.2.1, ht.2.2.2⟩) kv hkv

theorem inv_unarchive {st : TaskDomain} (h : DomainInv st) (id now : String) :
    DomainInv (st.unarchive id now).2 := by
  unfold TaskDomain.unarchive
  split
  · exact h
  · dsimp only
    split
    all_goals
      intro kv hkv
      refine inv_mapModify st.tasks id
        (fun t => { t with archivedAt := none, updatedAt := now }) h
        (fun t ht => ⟨ht.1, ht.2.1, ht.2.2.1, ht.2.2.2⟩) kv hkv

theorem inv_cancel {st : TaskDomain} (h : DomainInv st) (id now : String) :
    DomainInv (st.cancel id now).2 := by
  unfold TaskDomain.cancel
  split
  · exact h
  · split
    · exact h
    · dsimp only
      split <;>
        exact fun kv hkv =>
          inv_mapModify _ _ _ h (fun t ht => taskInv_cancel_update ht now) kv hkv

theorem inv_retry {st : TaskDomain} (h : DomainInv st) (id now : String)
    (millis : Nat) : DomainInv (st.retry id now millis).2 := by
  unfold TaskDomain.retry
  split
  · exact h
  · split
    · exact h
    · dsimp only
      exact inv_run
        (fun kv hkv =>
          inv_mapModify _ _ _ h (fun t ht => taskInv_retry_reset ht now) kv hkv)
        id now millis

theorem inv_run_all {st : TaskDomain} (h : DomainInv st) (now : String)
    (millis : Nat) : DomainInv (st.run_all now millis).2 := by
  unfold TaskDomain.run_all
  have hfold : ∀ (ids : List String) (acc : TaskRunAllResult × TaskDomain),
      DomainInv acc.2 →
      DomainInv (ids.foldl
        (fun acc taskId =>
          match queue_task acc.2 taskId now millis with
          | (.ok _, st') => (⟨satAdd64 acc.1.enqueued 1, acc.1.errors⟩, st')
          | (.error e, st') =>
            (⟨acc.1.enqueued, acc.1.errors ++ [taskId ++ ": " ++ e.message]⟩, st'))
        acc).2 := by
    intro ids
    induction ids with
    | nil => intro acc hacc; exact hacc
    | cons hd tl ih =>
      intro acc hacc
      simp only [List.foldl_cons]
      apply ih
      have hstep := inv_queue_task hacc hd now millis
      split
      case _ q st' heq => rw [heq] at hstep; exact hstep
      case _ e st' heq => rw [heq] at hstep; exact hstep
  exact hfold _ _ h

theorem inv_clear {st : TaskDomain} : DomainInv st.clear.2 := by
  intro kv hkv
  cases hkv

theorem inv_applyOp {st : TaskDomain} (h : DomainInv st) (op : TaskOp) :
    DomainInv (applyOp st op) := by
  cases op with
  | create params now millis => exact inv_create h params now millis
  | update input now => exact inv_update h input now
  | close id now => exact inv_close h id now
  | archive id now => exact inv_archive h id now
  | unarchive id now => exact inv_unarchive h id now
  | run id now millis => exact inv_run h id now millis
  | runAll now millis => exact inv_run_all h now millis
  | retry id now millis => exact inv_retry h id now millis
  | cancel id now => exact inv_cancel h id now
  | clear => exact inv_clear

theorem inv_foldl (ops : List TaskOp) :
    ∀ st : TaskDomain, DomainInv st → DomainInv (ops.foldl applyOp st) := by
  induction ops with
  | nil => exact fun st h => h
  | cons op rest ih =>
    intro st h
    exact ih _ (inv_applyOp h op)

/-- C1 (amended): after any sequence of task-domain operations (create,
update, close, archive, unarchive, run, run_all, retry, cancel, clear)
starting from the fresh domain, every stored task satisfies: `errorMessage`
is non-null only when `status = "failed"`; `completedAt` is set iff the
status is terminal (`"closed"` or `"failed"`); `queuedTaskId` is set only
when the status is `"pending"` or `"running"` (the converse direction of the
original claim fails, see the counterexample); and `priority ∈ 1..=5`. -/
theorem c1_task_state_invariant (ops : List TaskOp) :
    DomainInv (runOps ops) :=
  inv_foldl ops TaskDomain.empty (fun kv hkv => absurd hkv (List.not_mem_nil kv))

/-- C1 witness: the invariant holds after a concrete create/run/cancel
trace. -/
theorem c1_task_state_invariant_witness :
    DomainInv (runOps
      [TaskOp.create ⟨"t1", "demo", none, some 9, none, some true, none⟩
        "2026-01-01T00:00:00Z" 7,
       TaskOp.cancel "t1" "2026-01-01T00:00:05Z"]) :=
  c1_task_state_invariant
    [TaskOp.create ⟨"t1", "demo", none, some 9, none, some true, none⟩
      "2026-01-01T00:00:00Z" 7,
     TaskOp.cancel "t1" "2026-01-01T00:00:05Z"]

/-- C1 counterexample: the claim as stated (with
`status ∈ {pending,running} ⇔ queuedTaskId set`) is false: `task.create`
with `autoExecute=false` and `status="pending"` stores a pending task with
no `queuedTaskId`. -/
theorem c1_claimed_invariant_counterexample :
    ¬ (∀ ops : List TaskOp, DomainInvClaimed (runOps ops)) := by
  intro hAll
  have h := hAll
    [TaskOp.create ⟨"t1", "demo", some "pending", none, none, some false, none⟩
      "2026-01-01T00:00:00Z" 0]
  exact absurd h (by decide)

/-! ## C10: `task.status` on an unknown id -/

/-- C10: for every id not present in the task map, `task.status(id)` returns
`isQueued = false` with `queuePosition` and `runnerPid` absent, rather than
a task-not-found error. -/
theorem c10_status_unknown_id (st : TaskDomain) (id : String) (pid : Nat)
    (h : mapFind st.tasks id = none) :
    st.status id pid =
      { isQueued := false, queuePosition := none, runnerPid := none } := by
  unfold TaskDomain.status
  rw [h]

/-- C10 witness: the empty domain and an unknown id. -/
theorem c10_status_unknown_id_witness :
    mapFind TaskDomain.empty.tasks "ghost" = none ∧
      TaskDomain.empty.status "ghost" 4242 =
        { isQueued := false, queuePosition := none, runnerPid := none } :=
  ⟨rfl, c10_status_unknown_id TaskDomain.empty "ghost" 4242 rfl⟩

/-! ## C5: readiness -/

instance : IsTotal TaskRecord (fun a b => a.createdAt ≤ b.createdAt) :=
  ⟨fun a b => le_total a.createdAt b.createdAt⟩

instance : IsTrans TaskRecord (fun a b => a.createdAt ≤ b.createdAt) :=
  ⟨fun _ _ _ hab hbc => le_trans hab hbc⟩

theorem mem_unblocking_ids (st : TaskDomain) (b : String) :
    b ∈ unblocking_ids st ↔
      ∃ blocker, blocker ∈ st.tasks.map (fun kv => kv.2) ∧ blocker.id = b ∧
        (blocker.status = "closed" ∨ blocker.archivedAt ≠ none) := by
  unfold unblocking_ids
  simp only [List.mem_map, List.mem_filter]
  constructor
  · rintro ⟨blocker, ⟨hmem, hcond⟩, rfl⟩
    refine ⟨blocker, hmem, rfl, ?_⟩
    rcases Bool.or_eq_true _ _ ▸ hcond with hcl | har
    · exact Or.inl (by simpa using hcl)
    · exact Or.inr (by simpa [Option.isSome_iff_ne_none] using har)
  · rintro ⟨blocker, hmem, rfl, hcond⟩
    refine ⟨blocker, ⟨hmem, ?_⟩, rfl⟩
    rcases hcond with hcl | har
    · simp [hcl]
    · simp [Option.isSome_iff_ne_none.mpr har]

/-- C5: a task is returned by `ready()` iff its status is `"open"`, it is
not archived, and its `blockedBy` is either absent or names a stored task
that is closed or archived; the result is sorted by `createdAt` ascending. -/
theorem c5_ready_spec (st : TaskDomain) (t : TaskRecord) :
    (t ∈ st.ready ↔
      (t ∈ st.tasks.map (fun kv => kv.2) ∧ t.status = "open" ∧
        t.archivedAt = none ∧
        (t.blockedBy = none ∨
          ∃ blocker, blocker ∈ st.tasks.map (fun kv => kv.2) ∧
            t.blockedBy = some blocker.id ∧
            (blocker.status = "closed" ∨ blocker.archivedAt ≠ none)))) ∧
    List.Sorted (fun a b => a.createdAt ≤ b.createdAt) st.ready := by
  constructor
  · rw [TaskDomain.ready, List.mem_insertionSort, readyFilter, List.mem_filter]
    constructor
    · rintro ⟨hmem, hcond⟩
      simp only [Bool.and_eq_true, beq_iff_eq, Option.isNone_iff_eq_none] at hcond
      obtain ⟨⟨hopen, harch⟩, hblock⟩ := hcond
      refine ⟨hmem, hopen, harch, ?_⟩
      cases hbb : t.blockedBy with
      | none => exact Or.inl rfl
      | some b =>
        rw [hbb] at hblock
        have hb : b ∈ unblocking_ids st := List.elem_iff.mp hblock
        obtain ⟨blocker, hbm, hbid, hbcond⟩ := (mem_unblocking_ids st b).mp hb
        exact Or.inr ⟨blocker, hbm, by rw [hbid], hbcond⟩
    · rintro ⟨hmem, hopen, harch, hblock⟩
      refine ⟨hmem, ?_⟩
      simp only [Bool.and_eq_true, beq_iff_eq, Option.isNone_iff_eq_none]
      refine ⟨⟨hopen, harch⟩, ?_⟩
      rcases hblock with hnone | ⟨blocker, hbm, hbid, hbcond⟩
      · rw [hnone]
      · rw [hbid]
        exact List.elem_iff.mpr
          ((mem_unblocking_ids st blocker.id).mpr ⟨blocker, hbm, rfl, hbcond⟩)
  · exact List.sorted_insertionSort _ _

/-! ## protocol.rs : method catalog and envelopes -/

/-- `MUTATING_METHODS` (protocol.rs). -/
def MUTATING_METHODS : List String :=
  ["task.create", "task.update", "task.close", "task.archive",
   "task.unarchive", "task.delete", "task.clear", "task.run", "task.run_all",
   "task.retry", "task.cancel", "loop.process", "loop.prune", "loop.retry",
   "loop.discard", "loop.stop", "loop.merge", "loop.trigger_merge_task",
   "planning.start", "planning.respond", "planning.resume", "planning.delete",
   "config.update", "collection.create", "collection.update",
   "collection.delete", "collection.import"]

/-- `is_mutating_method` (protocol.rs). -/
def is_mutating_method (method : String) : Bool :=
  MUTATING_METHODS.contains method

/-- `ResponseMeta` (protocol.rs). -/
structure ResponseMeta where
  servedBy : String
  servedAt : String
deriving DecidableEq, Repr

/-- `RpcErrorBody` (errors.rs). -/
structure RpcErrorBody where
  code : String
  message : String
  retryable : Bool
  details : Option JsonValue
deriving DecidableEq, Repr

/-- `ApiError::as_body` (errors.rs). -/
def ApiError.as_body (e : ApiError) : RpcErrorBody :=
  { code := e.code.as_str, message := e.message, retryable := e.retryable,
    details := e.details }

/-- A serialized response envelope: `SuccessEnvelope` or `ErrorEnvelope`
(protocol.rs). -/
inductive Envelope where
  | success (apiVersion id method : String) (result : JsonValue)
      (meta : ResponseMeta)
  | failure (apiVersion id : String) (method : Option String)
      (error : RpcErrorBody) (meta : ResponseMeta)
deriving DecidableEq, Repr

/-- `success_envelope` (protocol.rs); `servedAt` is the `now_ts()` read in
`response_meta`. -/
def success_envelope (requestId method : String) (result : JsonValue)
    (servedBy servedAt : String) : Envelope :=
  .success "v1" requestId method result ⟨servedBy, servedAt⟩

/-- `error_envelope` (protocol.rs). -/
def error_envelope (e : ApiError) (servedBy servedAt : String) : Envelope :=
  .failure "v1" e.requestId e.method e.as_body ⟨servedBy, servedAt⟩

/-- A request envelope after parsing, schema validation and authentication
(`RpcRequestEnvelope`, protocol.rs); `idempotencyKey` is
`meta.idempotency_key`. -/
structure RpcRequest where
  id : String
  method : String
  params : JsonValue
  idempotencyKey : Option String
deriving DecidableEq, Repr

/-! ## idempotency.rs -/

/-- `StoredResponse` (idempotency.rs). -/
structure StoredResponse where
  status : Nat
  envelope : Envelope
deriving DecidableEq, Repr

/-- `IdempotencyCheck` (idempotency.rs). -/
inductive IdempotencyCheck where
  | new
  | replay (response : StoredResponse)
  | conflict
deriving DecidableEq, Repr

/-- `Entry` (idempotency.rs); `createdAt` is the `Instant` the entry was
stored, modelled as seconds on a monotonic clock. -/
structure IdemEntry where
  params : JsonValue
  response : StoredResponse
  createdAt : Nat
deriving DecidableEq, Repr

/-- The `HashMap<String, Entry>` of `InMemoryIdempotencyStore`, as an
association list whose insert replaces an existing binding. -/
abbrev IdemStore := List (String × IdemEntry)

/-- `InMemoryIdempotencyStore::cleanup`: retain entries with
`created_at.elapsed() <= ttl` (here `elapsed = now - createdAt`). -/
def cleanup (ttl now : Nat) (entries : IdemStore) : IdemStore :=
  entries.filter (fun kv => now - kv.2.createdAt ≤ ttl)

/-- `InMemoryIdempotencyStore::make_key`. -/
def make_key (method key : String) : String := method ++ ":" ++ key

/-- `HashMap::get` on the association-list model. -/
def storeFind (entries : IdemStore) (k : String) : Option IdemEntry :=
  (entries.find? (fun kv => kv.1 == k)).map (·.2)

/-- `HashMap::insert` on the association-list model. -/
def storeInsert : IdemStore → String → IdemEntry → IdemStore
  | [], k, e => [(k, e)]
  | kv :: rest, k, e =>
    if kv.1 == k then (k, e) :: rest else kv :: storeInsert rest k e

/-- `InMemoryIdempotencyStore::check` (idempotency.rs); mutates the map via
cleanup, so the cleaned store is returned alongside the verdict. -/
def IdemStore.check (entries : IdemStore) (ttl : Nat) (method key : String)
    (params : JsonValue) (now : Nat) : IdempotencyCheck × IdemStore :=
  let entries := cleanup ttl now entries
  match storeFind entries (make_key method key) with
  | none => (.new, entries)
  | some entry =>
    if entry.params == params then (.replay entry.response, entries)
    else (.conflict, entries)

/-- `InMemoryIdempotencyStore::store` (idempotency.rs). -/
def IdemStore.store (entries : IdemStore) (ttl : Nat) (method key : String)
    (params : JsonValue) (response : StoredResponse) (now : Nat) : IdemStore :=
  let entries := cleanup ttl now entries
  storeInsert entries (make_key method key) ⟨params, response, now⟩

/-! ## runtime.rs : the idempotency gate of `handle_http_request` -/

/-- The dispatch-and-envelope step of `handle_http_request` (runtime.rs
lines 189-200): success gives HTTP 200 with a success envelope, an error
gives the code's status with an error envelope carrying the request
context. -/
def dispatchResult (dispatch : RpcRequest → Except ApiError JsonValue)
    (req : RpcRequest) (servedBy servedAt : String) : Nat × Envelope :=
  match dispatch req with
  | .ok result => (200, success_envelope req.id req.method result servedBy servedAt)
  | .error e =>
    let e := e.with_context req.id (some req.method)
    (e.status, error_envelope e servedBy servedAt)

/-- The idempotency-gate, dispatch and post-dispatch-store portion of
`RpcRuntime::handle_http_request` (runtime.rs lines 139-214).  Parsing,
schema validation and authentication precede this portion and are not
modelled; `now` is the idempotency clock, `servedAt` the response-meta
timestamp.  On replay the source converts the stored status through
`StatusCode::from_u16(..).unwrap_or(OK)`; stored statuses are always valid,
so the stored value is returned directly. -/
def handle_http_request (dispatch : RpcRequest → Except ApiError JsonValue)
    (servedBy : String) (ttl : Nat) (entries : IdemStore) (req : RpcRequest)
    (now : Nat) (servedAt : String) : (Nat × Envelope) × IdemStore :=
  if is_mutating_method req.method then
    match req.idempotencyKey with
    | none =>
      let error := (ApiError.invalid_params
          "mutating methods require meta.idempotencyKey").with_context
          req.id (some req.method)
      ((error.status, error_envelope error servedBy servedAt), entries)
    | some key =>
      match IdemStore.check entries ttl req.method key req.params now with
      | (.replay response, entries₁) =>
        ((response.status, response.envelope), entries₁)
      | (.conflict, entries₁) =>
        let error := ((ApiError.idempotency_conflict
            "idempotency key was already used with different parameters").with_context
            req.id (some req.method)).with_details
            ("method:" ++ req.method ++ ",idempotencyKey:" ++ key)
        ((error.status, error_envelope error servedBy servedAt), entries₁)
      | (.new, entries₁) =>
        let result := dispatchResult dispatch req servedBy servedAt
        (result,
          IdemStore.store entries₁ ttl req.method key req.params
            ⟨result.1, result.2⟩ now)
  else
    (dispatchResult dispatch req servedBy servedAt, entries)

/-! ## C2 / C9 : idempotency-gate lemmas -/

theorem handle_first_call (d : RpcRequest → Except ApiError JsonValue)
    (sb sa : String) (ttl now : Nat) (req : RpcRequest) (key : String)
    (hmut : is_mutating_method req.method = true)
    (hkey : req.idempotencyKey = some key) :
    handle_http_request d sb ttl [] req now sa =
      (dispatchResult d req sb sa,
        [(make_key req.method key,
          ⟨req.params,
            ⟨(dispatchResult d req sb sa).1, (dispatchResult d req sb sa).2⟩,
            now⟩)]) := by
  unfold handle_http_request IdemStore.check IdemStore.store cleanup storeFind
  simp [hmut, hkey, storeInsert]

theorem handle_replay (d : RpcRequest → Except ApiError JsonValue)
    (sb sa : String) (ttl now₂ : Nat) (req : RpcRequest) (key : String)
    (entry : IdemEntry)
    (hmut : is_mutating_method req.method = true)
    (hkey : req.idempotencyKey = some key)
    (hfresh : now₂ - entry.createdAt ≤ ttl)
    (hparams : entry.params = req.params) :
    handle_http_request d sb ttl [(make_key req.method key, entry)] req now₂ sa =
      ((entry.response.status, entry.response.envelope),
        [(make_key req.method key, entry)]) := by
  unfold handle_http_request IdemStore.check cleanup storeFind
  have hfresh' : now₂ ≤ ttl + entry.createdAt := by omega
  simp [hmut, hkey, hfresh', hparams]

/-- C2: for requests whose method is in the mutating set, a missing
`meta.idempotencyKey` yields invalid-params (400); after a first call from
an empty store, a second call with the same method, key and identical
params within the TTL returns the exact stored (status, envelope) for every
dispatch function (no re-dispatch); the same key with different params
yields idempotency-conflict (409); and an entry older than the TTL is
evicted on access, so the repeat behaves exactly as a fresh call. -/
theorem c2_idempotency_gate (req : RpcRequest) (key : String)
    (ttl now₁ : Nat) (d₁ : RpcRequest → Except ApiError JsonValue)
    (sb₁ sa₁ : String)
    (hmut : is_mutating_method req.method = true)
    (hkey : req.idempotencyKey = some key) :
    (∀ (d : RpcRequest → Except ApiError JsonValue) (sb sa : String)
        (entries : IdemStore) (r : RpcRequest) (now : Nat),
        is_mutating_method r.method = true → r.idempotencyKey = none →
        (handle_http_request d sb ttl entries r now sa).1 =
          (400, error_envelope
            ((ApiError.invalid_params
                "mutating methods require meta.idempotencyKey").with_context
              r.id (some r.method)) sb sa)) ∧
    (∀ (d₂ : RpcRequest → Except ApiError JsonValue) (sb₂ sa₂ : String)
        (now₂ : Nat), now₂ - now₁ ≤ ttl →
        (handle_http_request d₂ sb₂ ttl
            (handle_http_request d₁ sb₁ ttl [] req now₁ sa₁).2
            req now₂ sa₂).1 =
          (handle_http_request d₁ sb₁ ttl [] req now₁ sa₁).1) ∧
    (∀ (d₂ : RpcRequest → Except ApiError JsonValue) (sb₂ sa₂ : String)
        (now₂ : Nat) (ps : JsonValue),
        now₂ - now₁ ≤ ttl → ps ≠ req.params →
        ∃ e : ApiError,
          (handle_http_request d₂ sb₂ ttl
              (handle_http_request d₁ sb₁ ttl [] req now₁ sa₁).2
              { req with params := ps } now₂ sa₂).1 =
            (e.status, error_envelope e sb₂ sa₂) ∧
          e.code = RpcErrorCode.idempotencyConflict ∧ e.status = 409) ∧
    (∀ (d₂ : RpcRequest → Except ApiError JsonValue) (sb₂ sa₂ : String)
        (now₂ : Nat), ttl < now₂ - now₁ →
        handle_http_request d₂ sb₂ ttl
            (handle_http_request d₁ sb₁ ttl [] req now₁ sa₁).2
            req now₂ sa₂ =
          handle_http_request d₂ sb₂ ttl [] req now₂ sa₂) := by
  refine ⟨?_, ?_, ?_, ?_⟩
  · intro d sb sa entries r now hm hk
    unfold handle_http_request
    simp [hm, hk, ApiError.with_context, ApiError.invalid_params, ApiError.new,
      status_for_code]
  · intro d₂ sb₂ sa₂ now₂ hfresh
    rw [handle_first_call d₁ sb₁ sa₁ ttl now₁ req key hmut hkey]
    rw [handle_replay d₂ sb₂ sa₂ ttl now₂ req key _ hmut hkey hfresh rfl]
  · intro d₂ sb₂ sa₂ now₂ ps hfresh hne
    rw [handle_first_call d₁ sb₁ sa₁ ttl now₁ req key hmut hkey]
    refine ⟨((ApiError.idempotency_conflict
        "idempotency key was already used with different parameters").with_context
        req.id (some req.method)).with_details
        ("method:" ++ req.method ++ ",idempotencyKey:" ++ key), ?_, rfl, rfl⟩
    unfold handle_http_request IdemStore.check cleanup storeFind
    have hne' : ¬ (req.params = ps) := fun hc => hne hc.symm
    have hfresh' : now₂ ≤ ttl + now₁ := by omega
    simp [hmut, hkey, hfresh', hne']
  · intro d₂ sb₂ sa₂ now₂ hexp
    rw [handle_first_call d₁ sb₁ sa₁ ttl now₁ req key hmut hkey]
    have hdrop : ¬ (now₂ ≤ ttl + now₁) := by omega
    unfold handle_http_request IdemStore.check cleanup storeFind
    simp [hmut, hkey, hdrop]

/-- C2 witness: a concrete replay after `task.create` with key `idem-1`. -/
theorem c2_idempotency_gate_witness :
    (handle_http_request (fun _ => .error (ApiError.task_not_found "nope"))
        "sb" 60
        (handle_http_request (fun _ => .ok "created") "sb" 60 []
          ⟨"r1", "task.create", "paramsA", some "idem-1"⟩ 0 "t0").2
        ⟨"r1", "task.create", "paramsA", some "idem-1"⟩ 10 "t1").1 =
      (handle_http_request (fun _ => .ok "created") "sb" 60 []
        ⟨"r1", "task.create", "paramsA", some "idem-1"⟩ 0 "t0").1 :=
  (c2_idempotency_gate ⟨"r1", "task.create", "paramsA", some "idem-1"⟩
      "idem-1" 60 0 (fun _ => .ok "created") "sb" "t0" (by decide) rfl).2.1
    (fun _ => .error (ApiError.task_not_found "nope")) "sb" "t1" 10 (by decide)

theorem status_for_code_ge_400 (c : RpcErrorCode) :
    400 ≤ status_for_code c := by
  cases c <;> simp [status_for_code]

/-- C9: for a mutating request whose idempotency check returned New, the
pipeline stores the resulting (status, envelope) even when dispatch failed:
starting from the empty store, if dispatch returns an error then the error
response (status ≥ 400) is cached under `method:key`, and a retry with the
same method, key and params within the TTL replays the cached error for
every dispatch function instead of re-attempting the operation. -/
theorem c9_error_responses_cached (req : RpcRequest) (key : String)
    (ttl now₁ : Nat) (err : ApiError)
    (d₁ : RpcRequest → Except ApiError JsonValue) (sb₁ sa₁ : String)
    (hmut : is_mutating_method req.method = true)
    (hkey : req.idempotencyKey = some key)
    (hd : d₁ req = .error err)
    (hstatus : err.status = status_for_code err.code) :
    ((handle_http_request d₁ sb₁ ttl [] req now₁ sa₁).1 =
      ((err.with_context req.id (some req.method)).status,
        error_envelope (err.with_context req.id (some req.method)) sb₁ sa₁)) ∧
    400 ≤ (handle_http_request d₁ sb₁ ttl [] req now₁ sa₁).1.1 ∧
    storeFind (handle_http_request d₁ sb₁ ttl [] req now₁ sa₁).2
        (make_key req.method key) =
      some ⟨req.params,
        ⟨(handle_http_request d₁ sb₁ ttl [] req now₁ sa₁).1.1,
          (handle_http_request d₁ sb₁ ttl [] req now₁ sa₁).1.2⟩, now₁⟩ ∧
    (∀ (d₂ : RpcRequest → Except ApiError JsonValue) (sb₂ sa₂ : String)
        (now₂ : Nat), now₂ - now₁ ≤ ttl →
        (handle_http_request d₂ sb₂ ttl
            (handle_http_request d₁ sb₁ ttl [] req now₁ sa₁).2
            req now₂ sa₂).1 =
          (handle_http_request d₁ sb₁ ttl [] req now₁ sa₁).1) := by
  have hdisp : dispatchResult d₁ req sb₁ sa₁ =
      ((err.with_context req.id (some req.method)).status,
        error_envelope (err.with_context req.id (some req.method)) sb₁ sa₁) := by
    unfold dispatchResult
    rw [hd]
  refine ⟨?_, ?_, ?_, ?_⟩
  · rw [handle_first_call d₁ sb₁ sa₁ ttl now₁ req key hmut hkey, hdisp]
  · rw [handle_first_call d₁ sb₁ sa₁ ttl now₁ req key hmut hkey, hdisp]
    have : (err.with_context req.id (some req.method)).status = err.status := rfl
    rw [this, hstatus]
    exact status_for_code_ge_400 err.code
  · rw [handle_first_call d₁ sb₁ sa₁ ttl now₁ req key hmut hkey]
    simp [storeFind]
  · intro d₂ sb₂ sa₂ now₂ hfresh
    rw [handle_first_call d₁ sb₁ sa₁ ttl now₁ req key hmut hkey]
    rw [handle_replay d₂ sb₂ sa₂ ttl now₂ req key _ hmut hkey hfresh rfl]

/-- C9 witness: a failed `task.run` is cached and replayed. -/
theorem c9_error_responses_cached_witness :
    400 ≤ (handle_http_request
        (fun _ => .error (ApiError.task_not_found "missing")) "sb" 60 []
        ⟨"r2", "task.run", "paramsB", some "idem-2"⟩ 0 "t0").1.1 :=
  (c9_error_responses_cached ⟨"r2", "task.run", "paramsB", some "idem-2"⟩
      "idem-2" 60 0 (ApiError.task_not_found "missing")
      (fun _ => .error (ApiError.task_not_found "missing")) "sb" "t0"
      (by decide) rfl rfl rfl).2.1

/-! ## stream_domain/filters.rs : cursor parsing -/

/-- The digit accumulator of `str::parse::<u64>`. -/
def parseDigitsVal (ds : List Char) : Nat :=
  ds.foldl (fun acc c => acc * 10 + (c.toNat - 48)) 0

/-- `str::parse::<u64>`: an optional leading `+`, then one or more ASCII
digits; overflow past `u64::MAX` is an error. -/
def parseU64Chars (cs : List Char) : Option Nat :=
  let ds := match cs with
    | c :: rest => if c = '+' then rest else cs
    | [] => []
  if ds.isEmpty then none
  else if ds.all (fun c => c.isDigit) then
    let v := parseDigitsVal ds
    if v ≤ u64Max then some v else none
  else none

/-- The scanning loop of `str::rsplit_once`, walking the reversed string. -/
def rsplitGo (sep : Char) : List Char → List Char →
    Option (List Char × List Char)
  | [], _ => none
  | c :: rest, acc =>
    if c = sep then some (rest.reverse, acc) else rsplitGo sep rest (c :: acc)

/-- `str::rsplit_once`: split around the last occurrence of `sep`. -/
def rsplitOnce (s : String) (sep : Char) : Option (String × String) :=
  match rsplitGo sep s.toList.reverse [] with
  | some (before, after) => some (⟨before⟩, ⟨after⟩)
  | none => none

/-- The invalid-cursor error of `cursor_sequence` (filters.rs). -/
def cursor_format_error (cursor : String) : ApiError :=
  (ApiError.invalid_params
      ("cursor must match " ++ sq ++ "<epochMillis>-<sequence>" ++ sq ++
        " format")).with_details ("cursor:" ++ cursor)

/-- `cursor_sequence` (filters.rs): parse the last `-`-separated segment as
a `u64`. -/
def cursor_sequence (cursor : String) : Except ApiError Nat :=
  match rsplitOnce cursor '-' with
  | some (_, seqPart) =>
    match parseU64Chars seqPart.toList with
    | some n => .ok n
    | none => .error (cursor_format_error cursor)
  | none => .error (cursor_format_error cursor)

/-- `validate_cursor` (filters.rs). -/
def validate_cursor (cursor : String) : Except ApiError Unit :=
  match cursor_sequence cursor with
  | .ok _ => .ok ()
  | .error e => .error e

/-- `cursor_is_older` (filters.rs). -/
def cursor_is_older (candidate current : String) : Except ApiError Bool :=
  match cursor_sequence candidate with
  | .error e => .error e
  | .ok candidateSequence =>
    match cursor_sequence current with
    | .error e => .error e
    | .ok currentSequence => .ok (decide (candidateSequence < currentSequence))

/-- `format!("{}-{sequence}", millis)`: the cursor minted by `next_event`.
`timestamp_millis()` is nonnegative for this service's clock; the parse
takes the last `-`-separated segment, so a sign would not change it. -/
def mkCursor (millis seq : Nat) : String :=
  natRepr millis ++ "-" ++ natRepr seq

/-! ## stream_domain/mod.rs : data model -/

/-- `STREAM_TOPICS` (protocol.rs). -/
def STREAM_TOPICS : List String :=
  ["system.heartbeat", "system.lifecycle", "task.log.line",
   "task.status.changed", "loop.status.changed", "loop.merge.progress",
   "planning.prompt.issued", "planning.response.recorded",
   "planning.artifact.updated", "config.updated", "collection.updated",
   "preset.refreshed", "error.raised", "stream.keepalive"]

/-- `HISTORY_LIMIT` (stream_domain/mod.rs). -/
def HISTORY_LIMIT : Nat := 2048

/-- `StreamResource` (stream_domain/mod.rs); the serialized field name of
`kind` is `type`. -/
structure StreamResource where
  kind : String
  id : String
deriving DecidableEq, Repr

/-- `StreamReplay` (stream_domain/mod.rs). -/
structure StreamReplay where
  mode : String
  requestedCursor : Option String
  batch : Option Nat
deriving DecidableEq, Repr

/-- `StreamEventEnvelope` (stream_domain/mod.rs). -/
structure StreamEventEnvelope where
  apiVersion : String
  stream : String
  topic : String
  cursor : String
  sequence : Nat
  ts : String
  resource : StreamResource
  replay : StreamReplay
  payload : JsonValue
deriving DecidableEq, Repr

/-- `SubscriptionFilters` (stream_domain/filters.rs); the hash sets are
modelled as lists used only through `contains`/`is_empty`. -/
structure SubscriptionFilters where
  resourceIds : List String
  resourceTypes : List String
deriving DecidableEq, Repr

/-- `SubscriptionFilters::matches` (filters.rs): the two early-return
guards, written as one conjunction. -/
def SubscriptionFilters.matchesEvent (f : SubscriptionFilters)
    (event : StreamEventEnvelope) : Bool :=
  (f.resourceIds.isEmpty || f.resourceIds.contains event.resource.id) &&
    (f.resourceTypes.isEmpty || f.resourceTypes.contains event.resource.kind)

/-- `SubscriptionRecord` (stream_domain/mod.rs). -/
structure SubscriptionRecord where
  topics : List String
  filters : SubscriptionFilters
  cursor : String
  replayLimit : Nat
  explicitCursor : Bool
  principal : String
deriving DecidableEq, Repr

/-- `SubscriptionRecord::matches` (stream_domain/mod.rs). -/
def SubscriptionRecord.matchesEvent (s : SubscriptionRecord)
    (event : StreamEventEnvelope) : Bool :=
  s.topics.contains event.topic && s.filters.matchesEvent event

/-- `StreamState` (stream_domain/mod.rs); the subscription `HashMap` is an
association list. -/
structure StreamState where
  sequence : Nat
  subscriptionCounter : Nat
  history : List StreamEventEnvelope
  subscriptions : List (String × SubscriptionRecord)
deriving Repr

/-- The state built by `StreamDomain::new`. -/
def StreamState.new : StreamState :=
  { sequence := 0, subscriptionCounter := 0, history := [], subscriptions := [] }

/-- `HashMap::get` on the subscription map. -/
def subFind (subs : List (String × SubscriptionRecord)) (id : String) :
    Option SubscriptionRecord :=
  (subs.find? (fun kv => kv.1 == id)).map (·.2)

/-- In-place update through `HashMap::get_mut` on the subscription map. -/
def subModify (subs : List (String × SubscriptionRecord)) (id : String)
    (f : SubscriptionRecord → SubscriptionRecord) :
    List (String × SubscriptionRecord) :=
  subs.map (fun kv => if kv.1 == id then (kv.1, f kv.2) else kv)

/-- The subscription-not-found error (stream_domain/mod.rs). -/
def subscription_not_found_error (subscriptionId : String) : ApiError :=
  (ApiError.not_found
      ("subscription " ++ sq ++ subscriptionId ++ sq ++ " not found")).with_details
    ("subscriptionId:" ++ subscriptionId)

/-- `StreamAckParams` (stream_domain/mod.rs). -/
structure StreamAckParams where
  subscriptionId : String
  cursor : String
deriving DecidableEq, Repr

/-- `ReplayBatch` (stream_domain/mod.rs). -/
structure ReplayBatch where
  events : List StreamEventEnvelope
  droppedCount : Nat
deriving DecidableEq, Repr

/-- `next_event` (stream_domain/mod.rs): mint an event with the current
sequence number and bump the counter with `saturating_add`. -/
def next_event (state : StreamState) (topic resource_type resource_id : String)
    (payload : JsonValue) (mode : String) (requestedCursor : Option String)
    (batch : Option Nat) (millis : Nat) (ts : String) :
    StreamEventEnvelope × StreamState :=
  let seq := state.sequence
  ({ apiVersion := "v1", stream := "events.v1", topic := topic,
     cursor := mkCursor millis seq, sequence := seq, ts := ts,
     resource := { kind := resource_type, id := resource_id },
     replay := { mode := mode, requestedCursor := requestedCursor, batch := batch },
     payload := payload },
   { state with sequence := satAdd64 seq 1 })

/-- `StreamDomain::publish` (stream_domain/mod.rs): unknown topics are
dropped; the history ring evicts its front at `HISTORY_LIMIT`. -/
def StreamState.publish (state : StreamState)
    (topic resource_type resource_id : String) (payload : JsonValue)
    (millis : Nat) (ts : String) : StreamState :=
  if !STREAM_TOPICS.contains topic then state
  else
    let (event, s₁) :=
      next_event state topic resource_type resource_id payload "live" none none
        millis ts
    let history :=
      if s₁.history.length ≥ HISTORY_LIMIT then s₁.history.drop 1
      else s₁.history
    { s₁ with history := history ++ [event] }

/-- `StreamDomain::ack` (stream_domain/mod.rs). -/
def StreamState.ack (state : StreamState) (params : StreamAckParams) :
    Except ApiError StreamState :=
  match validate_cursor params.cursor with
  | .error e => .error e
  | .ok _ =>
    match subFind state.subscriptions params.subscriptionId with
    | none => .error (subscription_not_found_error params.subscriptionId)
    | some subscription =>
      match cursor_is_older params.cursor subscription.cursor with
      | .error e => .error e
      | .ok isOlder =>
        if isOlder then
          .error ((ApiError.precondition_failed
              "stream.ack cursor is older than the subscription checkpoint").with_details
            ("subscriptionId:" ++ params.subscriptionId ++ ",cursor:" ++
              params.cursor ++ ",currentCursor:" ++ subscription.cursor))
        else
          .ok { state with
            subscriptions := subModify state.subscriptions params.subscriptionId
              (fun s => { s with cursor := params.cursor, explicitCursor := true }) }

/-- `StreamDomain::replay_for_subscription` (stream_domain/mod.rs).
`Vec::split_off(n)` keeps the suffix from index `n`, i.e. `List.drop`; the
`u64::try_from(len)` of the batch size cannot overflow and is the plain
length. -/
def StreamState.replay_for_subscription (state : StreamState)
    (subscription_id : String) : Except ApiError ReplayBatch :=
  match subFind state.subscriptions subscription_id with
  | none => .error (subscription_not_found_error subscription_id)
  | some subscription =>
    match cursor_sequence subscription.cursor with
    | .error e => .error e
    | .ok cursorSeq =>
      let events := state.history.filter (fun event =>
        decide (cursorSeq < event.sequence) && subscription.matchesEvent event)
      let droppedCount := events.length - subscription.replayLimit
      let events := if droppedCount > 0 then events.drop droppedCount else events
      let events :=
        if events.isEmpty then events
        else
          let replayMode := if subscription.explicitCursor then "resume" else "replay"
          let batch := events.length
          events.map (fun event =>
            { event with replay :=
                { mode := replayMode,
                  requestedCursor := some subscription.cursor,
                  batch := some batch } })
      .ok { events := events, droppedCount := droppedCount }

/-! ## Decimal rendering round-trips through `cursor_sequence` -/

theorem digitChar_isDigit {d : Nat} (h : d < 10) :
    (digitChar d).isDigit = true := by
  interval_cases d <;> decide

theorem digitChar_toNat {d : Nat} (h : d < 10) :
    (digitChar d).toNat = 48 + d := by
  interval_cases d <;> decide

theorem digitChar_ne_dash {d : Nat} (h : d < 10) :
    digitChar d ≠ '-' := by
  interval_cases d <;> decide

theorem digitChar_ne_plus {d : Nat} (h : d < 10) :
    digitChar d ≠ '+' := by
  interval_cases d <;> decide

theorem natToDigits_ne_nil (n : Nat) : natToDigits n ≠ [] := by
  rw [natToDigits]
  split <;> simp

theorem mem_natToDigits (n : Nat) :
    ∀ c ∈ natToDigits n, ∃ d, d < 10 ∧ c = digitChar d := by
  induction n using Nat.strong_induction_on with
  | _ n ih =>
    rw [natToDigits]
    split
    · intro c hc
      rw [List.mem_singleton] at hc
      exact ⟨n, by omega, hc⟩
    · intro c hc
      rcases List.mem_append.mp hc with hl | hr
      · exact ih (n / 10) (Nat.div_lt_self (by omega) (by omega)) c hl
      · rw [List.mem_singleton] at hr
        exact ⟨n % 10, Nat.mod_lt _ (by omega), hr⟩

theorem parseDigitsVal_append (xs : List Char) (c : Char) :
    parseDigitsVal (xs ++ [c]) = parseDigitsVal xs * 10 + (c.toNat - 48) := by
  unfold parseDigitsVal
  rw [List.foldl_append]
  rfl

theorem parseDigitsVal_natToDigits (n : Nat) :
    parseDigitsVal (natToDigits n) = n := by
  induction n using Nat.strong_induction_on with
  | _ n ih =>
    rw [natToDigits]
    split
    · next h =>
      show parseDigitsVal [digitChar n] = n
      unfold parseDigitsVal
      simp [digitChar_toNat h]
    · next h =>
      rw [parseDigitsVal_append,
        ih (n / 10) (Nat.div_lt_self (by omega) (by omega)),
        digitChar_toNat (Nat.mod_lt _ (by omega))]
      omega

theorem parseU64Chars_natToDigits (n : Nat) (h : n ≤ u64Max) :
    parseU64Chars (natToDigits n) = some n := by
  obtain ⟨c, rest, hcons⟩ := List.exists_cons_of_ne_nil (natToDigits_ne_nil n)
  have hcmem : c ∈ natToDigits n := by rw [hcons]; exact List.mem_cons_self _ _
  obtain ⟨d, hd, hcd⟩ := mem_natToDigits n c hcmem
  unfold parseU64Chars
  rw [hcons]
  have hplus : ¬ c = '+' := by rw [hcd]; exact digitChar_ne_plus hd
  simp only [if_neg hplus]
  rw [← hcons]
  have hne : (natToDigits n).isEmpty = false := by
    simp [List.isEmpty_iff, natToDigits_ne_nil n]
  have hall : (natToDigits n).all (fun c => c.isDigit) = true := by
    rw [List.all_eq_true]
    intro x hx
    obtain ⟨d', hd', hxd⟩ := mem_natToDigits n x hx
    rw [hxd]
    exact digitChar_isDigit hd'
  simp [hne, hall, parseDigitsVal_natToDigits, h]

theorem rsplitGo_no_sep (sep : Char) (l : List Char) :
    ∀ (zs acc : List Char), (∀ c ∈ l, c ≠ sep) →
    rsplitGo sep (l ++ sep :: zs) acc = some (zs.reverse, l.reverse ++ acc) := by
  induction l with
  | nil =>
    intro zs acc _
    simp [rsplitGo]
  | cons c rest ih =>
    intro zs acc hl
    have hc : ¬ c = sep := hl c (List.mem_cons_self _ _)
    have hrest : ∀ x ∈ rest, x ≠ sep := fun x hx => hl x (List.mem_cons_of_mem _ hx)
    show (if c = sep then some ((rest ++ sep :: zs).reverse, acc)
        else rsplitGo sep (rest ++ sep :: zs) (c :: acc)) =
      some (zs.reverse, (c :: rest).reverse ++ acc)
    rw [if_neg hc, ih zs (c :: acc) hrest]
    simp

theorem rsplitOnce_mk (a b : String) (hb : ∀ c ∈ b.toList, c ≠ '-') :
    rsplitOnce (a ++ "-" ++ b) '-' = some (a, b) := by
  unfold rsplitOnce
  have hdata : (a ++ "-" ++ b).toList = a.toList ++ '-' :: b.toList := by
    show (a ++ "-" ++ b).data = a.data ++ '-' :: b.data
    rw [String.data_append, String.data_append,
      show "-".data = ['-'] from by decide]
    simp
  have hrev : (a ++ "-" ++ b).toList.reverse =
      b.toList.reverse ++ '-' :: a.toList.reverse := by
    rw [hdata]
    simp
  rw [hrev, rsplitGo_no_sep '-' b.toList.reverse a.toList.reverse []
      (fun c hc => hb c (List.mem_reverse.mp hc))]
  simp

theorem cursor_sequence_mkCursor (millis s : Nat) (hs : s ≤ u64Max) :
    cursor_sequence (mkCursor millis s) = .ok s := by
  unfold cursor_sequence mkCursor natRepr
  have hnodash : ∀ c ∈ (String.mk (natToDigits s)).toList, c ≠ '-' := by
    intro c hc
    obtain ⟨d, hd, hcd⟩ := mem_natToDigits s c hc
    rw [hcd]
    exact digitChar_ne_dash hd
  rw [rsplitOnce_mk ⟨natToDigits millis⟩ ⟨natToDigits s⟩ hnodash]
  show (match parseU64Chars (natToDigits s) with
    | some n => Except.ok n
    | none => Except.error (cursor_format_error _)) = Except.ok s
  rw [parseU64Chars_natToDigits s hs]

/-! ## C8: ack monotonicity -/

deriving instance DecidableEq for Except

theorem cursor_sequence_error_code (c : String) (e : ApiError)
    (h : cursor_sequence c = .error e) : e.code = RpcErrorCode.invalidParams := by
  unfold cursor_sequence at h
  split at h
  · split at h
    · exact absurd h (by simp)
    · simp only [Except.error.injEq] at h
      rw [← h]
      rfl
  · simp only [Except.error.injEq] at h
    rw [← h]
    rfl

theorem subFind_subModify (subs : List (String × SubscriptionRecord))
    (id : String) (f : SubscriptionRecord → SubscriptionRecord)
    (sub : SubscriptionRecord) (h : subFind subs id = some sub) :
    subFind (subModify subs id f) id = some (f sub) := by
  induction subs with
  | nil => simp [subFind] at h
  | cons kv rest ih =>
    cases hk : (kv.1 == id) with
    | true =>
      unfold subFind at h
      simp only [List.find?_cons, hk, Option.map_some] at h
      have hsub2 : kv.2 = sub := by simpa using h
      have heq : kv.1 = id := by simpa using hk
      have hhead : subModify (kv :: rest) id f =
          (kv.1, f kv.2) :: subModify rest id f := by
        unfold subModify
        simp [heq]
      rw [hhead]
      unfold subFind
      simp [List.find?_cons, hk, hsub2]
    | false =>
      unfold subFind at h
      simp only [List.find?_cons, hk] at h
      unfold subFind subModify
      simp only [List.map_cons, hk, Bool.false_eq_true, if_false,
        List.find?_cons]
      exact ih h

/-- C8: given a subscription whose stored cursor parses to `cseq` and an
ack cursor parsing to `nseq`, the ack fails with precondition-failed iff
`nseq < cseq`; on success the subscription's cursor becomes the new cursor
and `explicitCursor` becomes true, so the cursor sequence never decreases;
a cursor that does not parse yields the parser's invalid-params error. -/
theorem c8_ack_monotonic (state : StreamState) (id newCursor : String)
    (sub : SubscriptionRecord) (nseq cseq : Nat)
    (hsub : subFind state.subscriptions id = some sub)
    (hnew : cursor_sequence newCursor = .ok nseq)
    (hcur : cursor_sequence sub.cursor = .ok cseq) :
    ((∃ e : ApiError, state.ack ⟨id, newCursor⟩ = .error e ∧
        e.code = RpcErrorCode.preconditionFailed) ↔ nseq < cseq) ∧
    (cseq ≤ nseq →
      state.ack ⟨id, newCursor⟩ = .ok { state with
        subscriptions := subModify state.subscriptions id
          (fun s => { s with cursor := newCursor, explicitCursor := true }) }) ∧
    (∀ st', state.ack ⟨id, newCursor⟩ = .ok st' →
      subFind st'.subscriptions id =
        some { sub with cursor := newCursor, explicitCursor := true } ∧
      ∀ sub', subFind st'.subscriptions id = some sub' →
        ∃ nseq', cursor_sequence sub'.cursor = .ok nseq' ∧ cseq ≤ nseq') ∧
    (∀ (c : String) (e : ApiError), cursor_sequence c = .error e →
      state.ack ⟨id, c⟩ = .error e ∧ e.code = RpcErrorCode.invalidParams) := by
  have hack : state.ack ⟨id, newCursor⟩ =
      if nseq < cseq then
        .error ((ApiError.precondition_failed
            "stream.ack cursor is older than the subscription checkpoint").with_details
          ("subscriptionId:" ++ id ++ ",cursor:" ++ newCursor ++
            ",currentCursor:" ++ sub.cursor))
      else
        .ok { state with
          subscriptions := subModify state.subscriptions id
            (fun s => { s with cursor := newCursor, explicitCursor := true }) } := by
    unfold StreamState.ack validate_cursor cursor_is_older
    simp [hnew, hsub, hcur]
  refine ⟨?_, ?_, ?_, ?_⟩
  · constructor
    · rintro ⟨e, he, hcode⟩
      by_cases hlt : nseq < cseq
      · exact hlt
      · rw [hack, if_neg hlt] at he
        exact absurd he (by simp)
    · intro hlt
      refine ⟨_, by rw [hack, if_pos hlt], rfl⟩
  · intro hle
    rw [hack, if_neg (by omega)]
  · intro st' hok
    by_cases hlt : nseq < cseq
    · rw [hack, if_pos hlt] at hok
      exact absurd hok (by simp)
    · rw [hack, if_neg hlt] at hok
      simp only [Except.ok.injEq] at hok
      subst hok
      have hfound := subFind_subModify state.subscriptions id
        (fun s => { s with cursor := newCursor, explicitCursor := true }) sub hsub
      refine ⟨hfound, ?_⟩
      intro sub' hsub'
      rw [hfound] at hsub'
      simp only [Option.some.injEq] at hsub'
      subst hsub'
      exact ⟨nseq, hnew, by omega⟩
  · intro c e hc
    constructor
    · unfold StreamState.ack validate_cursor
      rw [hc]
    · exact cursor_sequence_error_code c e hc

/-- A concrete subscription record for the C8 witness. -/
def c8sub : SubscriptionRecord :=
  { topics := ["task.status.changed"], filters := { resourceIds := [], resourceTypes := [] },
    cursor := "100-5", replayLimit := 200, explicitCursor := false,
    principal := "trusted_local" }

/-- A concrete stream state for the C8 witness. -/
def c8state : StreamState :=
  { sequence := 6, subscriptionCounter := 1, history := [],
    subscriptions := [("sub-1", c8sub)] }

/-- C8 witness: acking forward from sequence 5 to 7 succeeds and rewrites
the stored cursor. -/
theorem c8_ack_monotonic_witness :
    c8state.ack ⟨"sub-1", "200-7"⟩ = .ok { c8state with
      subscriptions := subModify c8state.subscriptions "sub-1"
        (fun s => { s with cursor := "200-7", explicitCursor := true }) } :=
  (c8_ack_monotonic c8state "sub-1" "200-7" c8sub 7 5 (by decide) (by decide)
      (by decide)).2.1 (by omega)

/-! ## C3: replay batches -/

/-- Projection that forgets the replay marking, used to compare replayed
events with the raw history entries. -/
def clearReplay (e : StreamEventEnvelope) : StreamEventEnvelope :=
  { e with replay := { mode := "", requestedCursor := none, batch := none } }

/-- The history entries a subscription is owed: sequence strictly beyond
the cursor and matching the subscription's topics and filters. -/
def matchingHistory (state : StreamState) (sub : SubscriptionRecord)
    (cseq : Nat) : List StreamEventEnvelope :=
  state.history.filter (fun event =>
    decide (cseq < event.sequence) && sub.matchesEvent event)

/-- C3: for an existing subscription whose cursor parses to `cseq`,
`replay_for_subscription` returns exactly the matching history entries
beyond the cursor, truncated to the most-recent `replayLimit` with
`droppedCount` the overflow (oldest dropped), and every returned event is
marked with mode `resume`/`replay` by `explicitCursor`, the subscription
cursor as `requestedCursor`, and the batch size. -/
theorem c3_replay_spec (state : StreamState) (subscription_id : String)
    (sub : SubscriptionRecord) (cseq : Nat)
    (hsub : subFind state.subscriptions subscription_id = some sub)
    (hcur : cursor_sequence sub.cursor = .ok cseq) :
    ∃ batch : ReplayBatch,
      state.replay_for_subscription subscription_id = .ok batch ∧
      batch.droppedCount =
        (matchingHistory state sub cseq).length - sub.replayLimit ∧
      batch.events.map clearReplay =
        ((matchingHistory state sub cseq).drop batch.droppedCount).map clearReplay ∧
      batch.events.length =
        min (matchingHistory state sub cseq).length sub.replayLimit ∧
      (∀ e ∈ batch.events,
        e.replay.mode = (if sub.explicitCursor then "resume" else "replay") ∧
        e.replay.requestedCursor = some sub.cursor ∧
        e.replay.batch = some batch.events.length) := by
  unfold StreamState.replay_for_subscription
  rw [hsub]
  dsimp only
  rw [hcur]
  dsimp only
  set M := matchingHistory state sub cseq with hM
  have hMdef : state.history.filter (fun event =>
      decide (cseq < event.sequence) && sub.matchesEvent event) = M := rfl
  rw [hMdef]
  set d := M.length - sub.replayLimit with hd
  have hdropLen : (M.drop d).length = min M.length sub.replayLimit := by
    rw [List.length_drop]
    omega
  by_cases hpos : d > 0
  · rw [if_pos hpos]
    by_cases hempty : (M.drop d).isEmpty = true
    · refine ⟨_, rfl, rfl, ?_, ?_, ?_⟩
      · rw [if_pos hempty]
      · rw [if_pos hempty]
        exact hdropLen
      · rw [if_pos hempty, List.isEmpty_iff.mp hempty]
        intro e he
        exact absurd he (List.not_mem_nil e)
    · refine ⟨_, rfl, rfl, ?_, ?_, ?_⟩
      · rw [if_neg hempty, List.map_map]
        congr 1
      · rw [if_neg hempty, List.length_map]
        exact hdropLen
      · rw [if_neg hempty]
        intro e he
        rw [List.length_map]
        rcases List.mem_map.mp he with ⟨e₀, he₀, rfl⟩
        exact ⟨rfl, rfl, rfl⟩
  · have hd0 : d = 0 := by omega
    rw [if_neg hpos]
    by_cases hempty : M.isEmpty = true
    · refine ⟨_, rfl, rfl, ?_, ?_, ?_⟩
      · rw [if_pos hempty, hd0, List.drop_zero]
      · rw [if_pos hempty, List.isEmpty_iff.mp hempty]
        simp
      · rw [if_pos hempty, List.isEmpty_iff.mp hempty]
        intro e he
        exact absurd he (List.not_mem_nil e)
    · refine ⟨_, rfl, rfl, ?_, ?_, ?_⟩
      · rw [if_neg hempty, List.map_map, hd0, List.drop_zero]
        congr 1
      · rw [if_neg hempty, List.length_map, Nat.min_def]
        split_ifs <;> omega
      · rw [if_neg hempty]
        intro e he
        rw [List.length_map]
        rcases List.mem_map.mp he with ⟨e₀, he₀, rfl⟩
        exact ⟨rfl, rfl, rfl⟩

/-- A concrete subscription for the C3 witness: cursor at sequence 0,
replay limit 1, a two-event matching history (drops the older event). -/
def c3event (seq : Nat) : StreamEventEnvelope :=
  { apiVersion := "v1", stream := "events.v1", topic := "task.status.changed",
    cursor := mkCursor 1000 seq, sequence := seq, ts := "T",
    resource := { kind := "task", id := "t1" },
    replay := { mode := "live", requestedCursor := none, batch := none },
    payload := "p" }

/-- A concrete stream state for the C3 witness. -/
def c3state : StreamState :=
  { sequence := 3, subscriptionCounter := 1,
    history := [c3event 1, c3event 2],
    subscriptions := [("sub-9",
      { topics := ["task.status.changed"],
        filters := { resourceIds := [], resourceTypes := [] },
        cursor := "1000-0", replayLimit := 1, explicitCursor := true,
        principal := "trusted_local" })] }

/-- C3 witness: the replay batch of the concrete state keeps the newest
matching event and reports one dropped. -/
theorem c3_replay_spec_witness :
    ∃ batch : ReplayBatch,
      c3state.replay_for_subscription "sub-9" = .ok batch ∧
      batch.droppedCount =
        (matchingHistory c3state
          { topics := ["task.status.changed"],
            filters := { resourceIds := [], resourceTypes := [] },
            cursor := "1000-0", replayLimit := 1, explicitCursor := true,
            principal := "trusted_local" } 0).length - 1 ∧
      batch.events.map clearReplay =
        ((matchingHistory c3state
          { topics := ["task.status.changed"],
            filters := { resourceIds := [], resourceTypes := [] },
            cursor := "1000-0", replayLimit := 1, explicitCursor := true,
            principal := "trusted_local" } 0).drop batch.droppedCount).map
            clearReplay ∧
      batch.events.length =
        min (matchingHistory c3state
          { topics := ["task.status.changed"],
            filters := { resourceIds := [], resourceTypes := [] },
            cursor := "1000-0", replayLimit := 1, explicitCursor := true,
            principal := "trusted_local" } 0).length 1 ∧
      (∀ e ∈ batch.events,
        e.replay.mode = (if true then "resume" else "replay") ∧
        e.replay.requestedCursor = some "1000-0" ∧
        e.replay.batch = some batch.events.length) :=
  c3_replay_spec c3state "sub-9"
    { topics := ["task.status.changed"],
      filters := { resourceIds := [], resourceTypes := [] },
      cursor := "1000-0", replayLimit := 1, explicitCursor := true,
      principal := "trusted_local" } 0 (by decide) (by decide)

/-! ## C4: event-bus sequencing -/

/-- One call to `StreamDomain::publish`, with its clock readings. -/
structure PublishCall where
  topic : String
  resourceType : String
  resourceId : String
  payload : JsonValue
  millis : Nat
  ts : String
deriving DecidableEq, Repr

/-- The event minted by one publish call (empty for non-catalog topics,
which `publish` silently drops). -/
def publishMinted (st : StreamState) (call : PublishCall) :
    List StreamEventEnvelope :=
  if STREAM_TOPICS.contains call.topic then
    [(next_event st call.topic call.resourceType call.resourceId call.payload
        "live" none none call.millis call.ts).1]
  else []

/-- Run a sequence of publish calls, collecting the minted events. -/
def runPub (st : StreamState) :
    List PublishCall → StreamState × List StreamEventEnvelope
  | [] => (st, [])
  | call :: rest =>
    let st' := st.publish call.topic call.resourceType call.resourceId
      call.payload call.millis call.ts
    let tail := runPub st' rest
    (tail.1, publishMinted st call ++ tail.2)

/-- Number of catalog-topic publishes in a trace. -/
def validCount (calls : List PublishCall) : Nat :=
  (calls.filter (fun c => STREAM_TOPICS.contains c.topic)).length

/-- The sequence numbers a trace mints starting from counter value `s`
(the counter saturates at `u64Max`). -/
def seqList (s : Nat) : List PublishCall → List Nat
  | [] => []
  | call :: rest =>
    if STREAM_TOPICS.contains call.topic then
      s :: seqList (min (s + 1) u64Max) rest
    else seqList s rest

theorem runPub_seq_map (calls : List PublishCall) :
    ∀ st : StreamState,
      ((runPub st calls).2).map (fun e => e.sequence) = seqList st.sequence calls := by
  induction calls with
  | nil => intro st; rfl
  | cons call rest ih =>
    intro st
    by_cases hv : call.topic ∈ STREAM_TOPICS
    · simp only [runPub, List.map_append, ih]
      simp [publishMinted, hv, seqList, StreamState.publish, next_event, satAdd64]
    · simp only [runPub, List.map_append, ih]
      simp [publishMinted, hv, seqList, StreamState.publish]

theorem seqList_validCount_zero (calls : List PublishCall) :
    ∀ s, validCount calls = 0 → seqList s calls = [] := by
  induction calls with
  | nil => intro s _; rfl
  | cons call rest ih =>
    intro s h
    by_cases hv : call.topic ∈ STREAM_TOPICS
    · exact absurd h (by simp [validCount, hv])
    · have h' : validCount rest = 0 := by
        simp only [validCount, List.length_eq_zero, List.filter_eq_nil_iff] at h ⊢
        intro c hc
        exact h c (List.mem_cons_of_mem _ hc)
      simp [seqList, hv, ih s h']

theorem seqList_bound_pairwise (calls : List PublishCall) :
    ∀ s, s + validCount calls ≤ u64Max + 1 →
      (∀ x ∈ seqList s calls, s ≤ x) ∧
        List.Pairwise (· < ·) (seqList s calls) := by
  induction calls with
  | nil => intro s _; exact ⟨by simp [seqList], by simp [seqList]⟩
  | cons call rest ih =>
    intro s h
    by_cases hv : call.topic ∈ STREAM_TOPICS
    · have hvc : validCount (call :: rest) = validCount rest + 1 := by
        simp [validCount, hv]
      rw [hvc] at h
      have hlist : seqList s (call :: rest) =
          s :: seqList (min (s + 1) u64Max) rest := by
        simp [seqList, hv]
      by_cases hsM : s < u64Max
      · have hmin : min (s + 1) u64Max = s + 1 := Nat.min_eq_left (by omega)
        obtain ⟨ihb, ihp⟩ := ih (s + 1) (by omega)
        rw [hlist, hmin]
        constructor
        · intro x hx
          rcases List.mem_cons.mp hx with hxe | hx
          · exact le_of_eq hxe.symm
          · exact Nat.le_of_lt (by have := ihb x hx; omega)
        · exact List.Pairwise.cons (fun x hx => by have := ihb x hx; omega) ihp
      · have hvc0 : validCount rest = 0 := by omega
        have htail : seqList (min (s + 1) u64Max) rest = [] :=
          seqList_validCount_zero rest _ hvc0
        rw [hlist, htail]
        exact ⟨by simp, by simp⟩
    · have hvc : validCount (call :: rest) = validCount rest := by
        simp [validCount, hv]
      rw [hvc] at h
      simpa [seqList, hv] using ih s h

theorem publish_sequence_le (st : StreamState)
    (topic rt ri : String) (p : JsonValue) (millis : Nat) (ts : String)
    (h : st.sequence ≤ u64Max) :
    (st.publish topic rt ri p millis ts).sequence ≤ u64Max := by
  unfold StreamState.publish
  by_cases hv : topic ∈ STREAM_TOPICS
  · simp [hv, next_event, satAdd64]
  · simp [hv, h]

theorem runPub_cursor_ok (calls : List PublishCall) :
    ∀ st : StreamState, st.sequence ≤ u64Max →
      ∀ e ∈ (runPub st calls).2, cursor_sequence e.cursor = .ok e.sequence := by
  induction calls with
  | nil => intro st _ e he; simp [runPub] at he
  | cons call rest ih =>
    intro st h e he
    simp only [runPub] at he
    rcases List.mem_append.mp he with hm | ht
    · by_cases hv : call.topic ∈ STREAM_TOPICS
      · have hm' : e = (next_event st call.topic call.resourceType
            call.resourceId call.payload "live" none none call.millis
            call.ts).1 := by
          simpa [publishMinted, hv] using hm
        subst hm'
        exact cursor_sequence_mkCursor call.millis st.sequence h
      · simp [publishMinted, hv] at hm
    · exact ih _ (publish_sequence_le st _ _ _ _ _ _ h) e ht

theorem publish_history_step (st : StreamState)
    (topic rt ri : String) (p : JsonValue) (millis : Nat) (ts : String)
    (L : List StreamEventEnvelope)
    (hv : STREAM_TOPICS.contains topic = true)
    (h : st.history = L.drop (L.length - HISTORY_LIMIT)) :
    (st.publish topic rt ri p millis ts).history =
      (L ++ [(next_event st topic rt ri p "live" none none millis ts).1]).drop
        ((L.length + 1) - HISTORY_LIMIT) := by
  have hlen : st.history.length = min L.length HISTORY_LIMIT := by
    rw [h, List.length_drop]
    omega
  have hv' : topic ∈ STREAM_TOPICS := by simpa using hv
  unfold StreamState.publish
  rw [if_neg (by simp [hv'])]
  show (if st.history.length ≥ HISTORY_LIMIT then st.history.drop 1
      else st.history) ++ [_] = _
  by_cases hfull : st.history.length ≥ HISTORY_LIMIT
  · rw [if_pos hfull]
    have hlim : HISTORY_LIMIT = 2048 := rfl
    have hLlen : HISTORY_LIMIT ≤ L.length := by
      rw [hlen] at hfull
      omega
    rw [h, List.drop_drop,
      List.drop_append_of_le_length (by omega : L.length + 1 - HISTORY_LIMIT ≤ L.length)]
    have harith : L.length - HISTORY_LIMIT + 1 = L.length + 1 - HISTORY_LIMIT := by
      omega
    rw [harith]
  · rw [if_neg hfull]
    have hsmall : L.length < HISTORY_LIMIT := by
      rw [hlen] at hfull
      omega
    rw [h]
    have h₁ : L.length - HISTORY_LIMIT = 0 := by omega
    have h₂ : L.length + 1 - HISTORY_LIMIT = 0 := by omega
    rw [h₁, h₂, List.drop_zero, List.drop_zero]

theorem runPub_history (calls : List PublishCall) :
    ∀ (st : StreamState) (L : List StreamEventEnvelope),
      st.history = L.drop (L.length - HISTORY_LIMIT) →
      (runPub st calls).1.history =
        (L ++ (runPub st calls).2).drop
          ((L ++ (runPub st calls).2).length - HISTORY_LIMIT) := by
  induction calls with
  | nil =>
    intro st L h
    simpa [runPub] using h
  | cons call rest ih =>
    intro st L h
    by_cases hv : call.topic ∈ STREAM_TOPICS
    · have hvb : STREAM_TOPICS.contains call.topic = true := by simpa using hv
      have hstep := publish_history_step st call.topic call.resourceType
        call.resourceId call.payload call.millis call.ts L hvb h
      have hstep' : (st.publish call.topic call.resourceType call.resourceId
          call.payload call.millis call.ts).history =
          (L ++ publishMinted st call).drop
            ((L ++ publishMinted st call).length - HISTORY_LIMIT) := by
        rw [hstep]
        simp [publishMinted, hv]
      have := ih (st.publish call.topic call.resourceType call.resourceId
          call.payload call.millis call.ts) (L ++ publishMinted st call) hstep'
      simp only [runPub]
      rw [this, List.append_assoc]
    · have hsame : st.publish call.topic call.resourceType call.resourceId
          call.payload call.millis call.ts = st := by
        unfold StreamState.publish
        simp [hv]
      have := ih (st.publish call.topic call.resourceType call.resourceId
          call.payload call.millis call.ts) L (by rw [hsame]; exact h)
      simp only [runPub]
      rw [this]
      simp [publishMinted, hv]

/-- C4 (amended): over any trace of at most `2^64` catalog publishes from
the fresh bus, the minted sequence numbers are strictly increasing (the
`u64` counter saturates at `2^64 - 1`, so longer traces repeat it — see the
counterexample); every minted event's cursor parses back to its sequence;
and the history holds at most 2048 events, always the most recent ones. -/
theorem c4_sequencing (calls : List PublishCall)
    (hcount : validCount calls ≤ u64Max + 1) :
    List.Pairwise (· < ·)
      ((runPub StreamState.new calls).2.map (fun e => e.sequence)) ∧
    (∀ e ∈ (runPub StreamState.new calls).2,
      cursor_sequence e.cursor = .ok e.sequence) ∧
    (runPub StreamState.new calls).1.history.length ≤ HISTORY_LIMIT ∧
    (runPub StreamState.new calls).1.history =
      (runPub StreamState.new calls).2.drop
        ((runPub StreamState.new calls).2.length - HISTORY_LIMIT) := by
  have hhist := runPub_history calls StreamState.new [] (by rfl)
  refine ⟨?_, ?_, ?_, ?_⟩
  · rw [runPub_seq_map]
    exact (seqList_bound_pairwise calls 0 (by simpa using hcount)).2
  · exact runPub_cursor_ok calls StreamState.new (Nat.zero_le _)
  · rw [hhist]
    simp only [List.nil_append, List.length_drop]
    omega
  · simpa using hhist

/-- C4 witness: two catalog publishes mint strictly increasing sequences. -/
theorem c4_sequencing_witness :
    List.Pairwise (· < ·)
      ((runPub StreamState.new
          [⟨"task.status.changed", "task", "t1", "x", 5, "T"⟩,
           ⟨"task.log.line", "task", "t1", "y", 6, "T"⟩]).2.map
        (fun e => e.sequence)) :=
  (c4_sequencing
      [⟨"task.status.changed", "task", "t1", "x", 5, "T"⟩,
       ⟨"task.log.line", "task", "t1", "y", 6, "T"⟩] (by decide)).1

theorem seqList_replicate (p : PublishCall)
    (hv : p.topic ∈ STREAM_TOPICS) :
    ∀ (n s : Nat), s ≤ u64Max →
      seqList s (List.replicate n p) =
        (List.range n).map (fun k => min (s + k) u64Max) := by
  intro n
  induction n with
  | zero => intro s _; simp [seqList]
  | succ n ih =>
    intro s h
    have hmm : ∀ k, min (min (s + 1) u64Max + k) u64Max =
        min (s + (k + 1)) u64Max := by
      intro k
      rcases Nat.le_total (s + 1) u64Max with hle | hge
      · rw [Nat.min_eq_left hle, show s + 1 + k = s + (k + 1) from by omega]
      · rw [Nat.min_eq_right hge, Nat.min_eq_right (by omega),
          Nat.min_eq_right (by omega)]
    rw [List.replicate_succ]
    have hlist : seqList s (p :: List.replicate n p) =
        s :: seqList (min (s + 1) u64Max) (List.replicate n p) := by
      simp [seqList, hv]
    rw [hlist, ih (min (s + 1) u64Max) (Nat.min_le_right _ _),
      List.range_succ_eq_map, List.map_cons, List.map_map]
    have hhead : min (s + 0) u64Max = s := by
      rw [Nat.add_zero]
      exact Nat.min_eq_left h
    rw [hhead]
    congr 1
    congr 1
    funext k
    show min (min (s + 1) u64Max + k) u64Max = min (s + Nat.succ k) u64Max
    rw [hmm k]

/-- C4 counterexample: the claim as stated (strict monotonicity over every
trace of publishes) fails once the `u64` counter saturates: after `2^64`
catalog publishes the counter sticks at `2^64 - 1` and the next event
repeats that sequence number. -/
theorem c4_strict_monotonicity_counterexample :
    ¬ (∀ calls : List PublishCall,
        List.Pairwise (· < ·)
          ((runPub StreamState.new calls).2.map (fun e => e.sequence))) := by
  intro hAll
  have hv : (⟨"task.status.changed", "task", "t1", "x", 0, "T"⟩ : PublishCall).topic
      ∈ STREAM_TOPICS := by
    decide
  have hp := hAll
    (List.replicate (2 ^ 64 + 1) ⟨"task.status.changed", "task", "t1", "x", 0, "T"⟩)
  rw [runPub_seq_map] at hp
  have hseq0 : StreamState.new.sequence = 0 := rfl
  rw [hseq0, seqList_replicate _ hv (2 ^ 64 + 1) 0 (Nat.zero_le _)] at hp
  have hnodup : ((List.range (2 ^ 64 + 1)).map
      (fun k => min (0 + k) u64Max)).Nodup :=
    hp.imp (fun hlt => Nat.ne_of_lt hlt)
  have hinj := List.inj_on_of_nodup_map hnodup
  have hmem₁ : 2 ^ 64 - 1 ∈ List.range (2 ^ 64 + 1) := by
    rw [List.mem_range]
    omega
  have hmem₂ : 2 ^ 64 ∈ List.range (2 ^ 64 + 1) := by
    rw [List.mem_range]
    omega
  have hpow : 0 < 2 ^ 64 := Nat.pos_pow_of_pos 64 (by omega)
  have hM : u64Max = 2 ^ 64 - 1 := rfl
  have heq : min (0 + (2 ^ 64 - 1)) u64Max = min (0 + 2 ^ 64) u64Max := by
    rw [Nat.zero_add, Nat.zero_add, hM, Nat.min_eq_left (by omega),
      Nat.min_eq_right (by omega)]
  have hxy := hinj hmem₁ hmem₂ heq
  omega

/-! ## planning_domain.rs : artifact access (C6) -/

/-- A `std::path::Component` as produced by `Path::components`. -/
inductive PathComp where
  | rootDir
  | curDir
  | parentDir
  | normal (name : String)
deriving DecidableEq, Repr

/-- Split a character list at every occurrence of `sep`, keeping empty
segments (the splitting underlying `Path::components` on `/`). -/
def splitChar (sep : Char) : List Char → List (List Char)
  | [] => [[]]
  | c :: rest =>
    let tail := splitChar sep rest
    if c = sep then [] :: tail
    else
      match tail with
      | seg :: rest' => (c :: seg) :: rest'
      | [] => [[c]]

/-- Whether the string starts with the character `c`
(`str::starts_with(char)`). -/
def starts_with_char (s : String) (c : Char) : Bool :=
  match s.toList with
  | x :: _ => x == c
  | [] => false

/-- `Path::components` for a Unix path: empty segments collapse, `.` is
dropped except as the first component of a relative path, `..` is
`ParentDir`, a leading `/` is `RootDir`. -/
def pathComponents (s : String) : List PathComp :=
  let cs := s.toList
  let root := starts_with_char s (Char.ofNat 47)
  let segs := (splitChar (Char.ofNat 47) cs).filter (fun seg => !seg.isEmpty)
  let body := segs.enum.filterMap (fun p =>
    if p.2 = ['.'] then
      if p.1 == 0 && !root then some PathComp.curDir else none
    else if p.2 = ['.', '.'] then some PathComp.parentDir
    else some (PathComp.normal ⟨p.2⟩))
  (if root then [PathComp.rootDir] else []) ++ body

/-- `is_invalid_filename` (planning_domain.rs): anything but a single
`Normal` component with a nonempty name. -/
def is_invalid_filename (filename : String) : Bool :=
  match pathComponents filename with
  | [PathComp.normal name] => name == ""
  | _ => true

/-- `is_listed_artifact_name` (planning_domain.rs); `filename.len()` is the
UTF-8 byte length. -/
def is_listed_artifact_name (filename : String) : Bool :=
  !(starts_with_char filename (Char.ofNat 46)) &&
    decide (filename.utf8ByteSize ≤ 255) &&
    !(filename == "") &&
    filename.toList.all (fun ch =>
      ch.isAlphanum || ch == Char.ofNat 46 || ch == (Char.ofNat 95) ||
        ch == (Char.ofNat 45)) &&
    !(is_invalid_filename filename)

/-- `MAX_SESSION_ID_LEN` (planning_domain.rs). -/
def MAX_SESSION_ID_LEN : Nat := 120

/-- `validate_session_id` (planning_domain.rs). -/
def validate_session_id (session_id : String) : Except ApiError Unit :=
  if session_id == "" || decide (session_id.utf8ByteSize > MAX_SESSION_ID_LEN) then
    .error ((ApiError.invalid_params
        ("planning session id must be 1..=" ++ natRepr MAX_SESSION_ID_LEN ++
          " characters")).with_details ("sessionId:" ++ session_id))
  else if !(session_id.toList.all (fun ch =>
      ch.isAlphanum || ch == (Char.ofNat 45) || ch == (Char.ofNat 95))) then
    .error ((ApiError.invalid_params
        "planning session id may only contain ASCII letters, digits, - or _").with_details
      ("sessionId:" ++ session_id))
  else .ok ()

/-- A directory entry as seen by `fs::symlink_metadata` (which does not
follow symlinks). -/
inductive FsEntry where
  | file (content : String)
  | dir
  | symlink
  | other
deriving DecidableEq, Repr

/-- The filesystem under `.ralph/planning-sessions`: which session
directories exist, and the entry (if any) at `artifacts/<filename>` of each
session. -/
structure PlanningFs where
  sessions : List String
  artifacts : List ((String × String) × FsEntry)
deriving DecidableEq, Repr

/-- Look up the directory entry at `<sessionId>/artifacts/<filename>`. -/
def fsLookup (fs : PlanningFs) (sessionId filename : String) : Option FsEntry :=
  (fs.artifacts.find? (fun kv =>
    kv.1.1 == sessionId && kv.1.2 == filename)).map (·.2)

/-- `ArtifactRecord` (planning_domain.rs). -/
structure ArtifactRecord where
  filename : String
  content : String
deriving DecidableEq, Repr

/-- `PlanningGetArtifactParams` (planning_domain.rs). -/
structure PlanningGetArtifactParams where
  sessionId : String
  filename : String
deriving DecidableEq, Repr

/-- `planning_session_not_found_error` (planning_domain.rs). -/
def planning_session_not_found_error (session_id : String) : ApiError :=
  (ApiError.planning_session_not_found
      ("Planning session " ++ sq ++ session_id ++ sq ++ " not found")).with_details
    ("sessionId:" ++ session_id)

/-- The uniform artifact-not-found error of `get_artifact`
(planning_domain.rs): it names only the filename and session id, never the
reason or the target's content. -/
def artifact_not_found_error (filename session_id : String) : ApiError :=
  ApiError.not_found
    ("artifact " ++ sq ++ filename ++ sq ++ " not found for planning session " ++
      sq ++ session_id ++ sq)

/-- `PlanningDomain::get_artifact` (planning_domain.rs).  `symlink_metadata`
inspects the entry itself (`fsLookup`); a missing entry or any non-regular
file maps to the uniform not-found error.  A `read_to_string` failure on a
regular file also maps to not-found (with the io error appended) and is not
modelled: file entries carry their content. -/
def get_artifact (fs : PlanningFs) (params : PlanningGetArtifactParams) :
    Except ApiError ArtifactRecord :=
  match validate_session_id params.sessionId with
  | .error e => .error e
  | .ok _ =>
    if is_invalid_filename params.filename then
      .error (ApiError.invalid_params
        "planning.get_artifact filename must be a plain file name")
    else if !(is_listed_artifact_name params.filename) then
      .error (artifact_not_found_error params.filename params.sessionId)
    else if !(fs.sessions.contains params.sessionId) then
      .error (planning_session_not_found_error params.sessionId)
    else
      match fsLookup fs params.sessionId params.filename with
      | some (FsEntry.file content) => .ok ⟨params.filename, content⟩
      | some _ =>
        .error (artifact_not_found_error params.filename params.sessionId)
      | none =>
        .error (artifact_not_found_error params.filename params.sessionId)

/-- C6 (amended): for a valid session id, a non-plain filename is rejected
with invalid-params (400), not 404; a plain filename outside the whitelist
and any entry that is absent or not a regular file are rejected with the
same not-found (404) error, which mentions only the filename and session id
(no hint which rule failed, no content); only a regular file is served. -/
theorem c6_get_artifact_policy (fs : PlanningFs)
    (params : PlanningGetArtifactParams)
    (hsid : validate_session_id params.sessionId = .ok ()) :
    (is_invalid_filename params.filename = true →
      get_artifact fs params = .error (ApiError.invalid_params
        "planning.get_artifact filename must be a plain file name") ∧
      (ApiError.invalid_params
        "planning.get_artifact filename must be a plain file name").status = 400) ∧
    (is_invalid_filename params.filename = false →
      is_listed_artifact_name params.filename = false →
      get_artifact fs params =
        .error (artifact_not_found_error params.filename params.sessionId) ∧
      (artifact_not_found_error params.filename params.sessionId).status = 404) ∧
    (is_invalid_filename params.filename = false →
      is_listed_artifact_name params.filename = true →
      fs.sessions.contains params.sessionId = true →
      (∀ entry, fsLookup fs params.sessionId params.filename = some entry →
        (∀ content, entry ≠ FsEntry.file content) →
        get_artifact fs params =
          .error (artifact_not_found_error params.filename params.sessionId)) ∧
      (fsLookup fs params.sessionId params.filename = none →
        get_artifact fs params =
          .error (artifact_not_found_error params.filename params.sessionId)) ∧
      (∀ content,
        fsLookup fs params.sessionId params.filename =
          some (FsEntry.file content) →
        get_artifact fs params = .ok ⟨params.filename, content⟩)) := by
  unfold get_artifact
  rw [hsid]
  refine ⟨?_, ?_, ?_⟩
  · intro hinv
    rw [if_pos hinv]
    exact ⟨rfl, rfl⟩
  · intro hinv hlist
    rw [if_neg (by simp [hinv]), if_pos (by simp [hlist])]
    exact ⟨rfl, rfl⟩
  · intro hinv hlist hsession
    rw [if_neg (by simp [hinv]), if_neg (by simp [hlist]),
      if_neg (by simpa using hsession)]
    refine ⟨?_, ?_, ?_⟩
    · intro entry hentry hnotfile
      rw [hentry]
      cases entry with
      | file content => exact absurd rfl (hnotfile content)
      | dir => rfl
      | symlink => rfl
      | other => rfl
    · intro hnone
      rw [hnone]
    · intro content hfile
      rw [hfile]

/-- C6 witness: a whitelisted regular file is served. -/
theorem c6_get_artifact_policy_witness :
    get_artifact ⟨["s1"], [(("s1", "plan.md"), FsEntry.file "content")]⟩
        ⟨"s1", "plan.md"⟩ = .ok ⟨"plan.md", "content"⟩ :=
  ((c6_get_artifact_policy
      ⟨["s1"], [(("s1", "plan.md"), FsEntry.file "content")]⟩
      ⟨"s1", "plan.md"⟩ (by decide)).2.2 (by decide) (by decide)
      (by decide)).2.2 "content" (by decide)

/-- C6 counterexample: the claim as stated says every non-plain file name
is rejected as not-found (404); in the code it is rejected with
invalid-params (HTTP 400) instead (filename `..`, existing session). -/
theorem c6_rejection_status_counterexample :
    ¬ (∀ (fs : PlanningFs) (params : PlanningGetArtifactParams),
        validate_session_id params.sessionId = .ok () →
        is_invalid_filename params.filename = true →
        ∃ e, get_artifact fs params = .error e ∧ e.status = 404) := by
  intro h
  obtain ⟨e, he, hstatus⟩ :=
    h ⟨["s1"], []⟩ ⟨"s1", ".."⟩ (by decide) (by decide)
  have hg : get_artifact ⟨["s1"], []⟩ ⟨"s1", ".."⟩ =
      .error (ApiError.invalid_params
        "planning.get_artifact filename must be a plain file name") := by
    decide
  rw [hg] at he
  simp only [Except.error.injEq] at he
  rw [← he] at hstatus
  exact absurd hstatus (by decide)

/-! ## loop_domain.rs : merge (C7)

The merge queue itself lives in the external `ralph-core` crate; its
entry type and transition primitives are modelled from the spec (Section 3,
"Loop-merge entry"). -/

/-- Modelled from the spec: the loop-merge states
`Queued, Merging, Merged, NeedsReview, Discarded`. -/
inductive MergeState where
  | queued
  | merging
  | merged
  | needsReview
  | discarded
deriving DecidableEq, Repr

/-- Modelled from the spec: a merge-queue entry
`\x7bloopId, prompt, state, mergeCommit?, worktreePath?\x7d`, plus the pid
recorded by `mark_merging`. -/
structure MergeEntry where
  loopId : String
  prompt : String
  state : MergeState
  mergeCommit : Option String
  worktreePath : Option String
  pid : Option Nat
deriving DecidableEq, Repr

/-- Modelled from the spec: the merge queue as a map from loop id to
entry. -/
structure MergeQueue where
  entries : List (String × MergeEntry)
deriving DecidableEq, Repr

/-- Modelled from the spec: `MergeQueue::get_entry` looks the loop id up in
the queue. -/
def queueFind (q : MergeQueue) (id : String) : Option MergeEntry :=
  (q.entries.find? (fun kv => kv.1 == id)).map (·.2)

/-- Update the entry stored under `id`, if any. -/
def queueModify (q : MergeQueue) (id : String) (f : MergeEntry → MergeEntry) :
    MergeQueue :=
  ⟨q.entries.map (fun kv => if kv.1 == id then (kv.1, f kv.2) else kv)⟩

/-- Modelled from the spec: `MergeQueue::mark_merging` transitions the entry
to `Merging`, recording the caller pid. -/
def mark_merging (q : MergeQueue) (id : String) (pid : Nat) : MergeQueue :=
  queueModify q id (fun e => { e with state := .merging, pid := some pid })

/-- Modelled from the spec: `MergeQueue::mark_merged` transitions the entry
to `Merged` with the given commit fingerprint. -/
def mark_merged (q : MergeQueue) (id : String) (commit : String) : MergeQueue :=
  queueModify q id (fun e => { e with state := .merged, mergeCommit := some commit })

/-- `LoopStopMergeParams` (loop_domain.rs). -/
structure LoopStopMergeParams where
  id : String
  force : Option Bool
deriving DecidableEq, Repr

/-- `loop_not_found_error` (loop_support.rs). -/
def loop_not_found_error (loop_id : String) : ApiError :=
  (ApiError.loop_not_found ("Loop " ++ sq ++ loop_id ++ sq ++ " not found")).with_details
    ("loopId:" ++ loop_id)

/-- `current_commit` (loop_support.rs): the trimmed stdout of
`git rev-parse --short HEAD` run in the workspace, or `manual` when the
command fails, exits nonzero, or prints nothing.  `gitShortHead` is the
trimmed stdout of a successful run, `none` otherwise. -/
def current_commit (gitShortHead : Option String) : String :=
  match gitShortHead with
  | some sha => if sha == "" then "manual" else sha
  | none => "manual"

/-- `LoopDomain::merge` (loop_domain.rs).  `gitShortHead` and `pid` stand
for the ambient `current_commit(&self.workspace_root)` and
`std::process::id()`. -/
def LoopDomain.merge (q : MergeQueue) (gitShortHead : Option String)
    (pid : Nat) (params : LoopStopMergeParams) :
    (Except ApiError Unit) × MergeQueue :=
  match queueFind q params.id with
  | none => (.error (loop_not_found_error params.id), q)
  | some entry =>
    match entry.state with
    | .merged =>
      (.error (ApiError.precondition_failed
        ("Loop " ++ sq ++ params.id ++ sq ++ " is already merged")), q)
    | .discarded =>
      (.error (ApiError.precondition_failed
        ("Loop " ++ sq ++ params.id ++ sq ++ " is discarded")), q)
    | _ =>
      if entry.state == .merging && !(params.force.getD false) then
        (.error (ApiError.precondition_failed
          ("Loop " ++ sq ++ params.id ++ sq ++
            " is currently merging. Use force=true to override.")), q)
      else
        let q₁ := if entry.state ≠ .merging then mark_merging q params.id pid
          else q
        (.ok (), mark_merged q₁ params.id (current_commit gitShortHead))

/-- Looking an id up after `queueModify` of that id sees the modification. -/
theorem queueFind_queueModify (q : MergeQueue) (id : String)
    (f : MergeEntry → MergeEntry) :
    queueFind (queueModify q id f) id = (queueFind q id).map f := by
  unfold queueFind queueModify
  obtain ⟨l⟩ := q
  induction l with
  | nil => rfl
  | cons kv rest ih =>
    by_cases hk : kv.1 = id
    · simp [List.find?_cons, hk]
    · simp only [List.map_cons]
      rw [show (if kv.1 == id then (kv.1, f kv.2) else kv) = kv from
        if_neg (by simpa using hk)]
      rw [List.find?_cons, List.find?_cons]
      rw [show (kv.1 == id) = false from by simpa using hk]
      exact ih

/-- C7: merge fails with loop-not-found (404) on an unknown id; with
precondition-failed (412) when the entry is Merged, Discarded, or Merging
without force (queue unchanged); otherwise it succeeds, leaving the entry
Merged with the workspace commit fingerprint (recording the caller pid via
the intermediate Merging step unless the entry was already Merging);
the fingerprint is `manual` when the workspace has none. -/
theorem c7_merge_spec (q : MergeQueue) (g : Option String) (pid : Nat)
    (params : LoopStopMergeParams) :
    (queueFind q params.id = none →
      LoopDomain.merge q g pid params =
        (.error (loop_not_found_error params.id), q) ∧
      (loop_not_found_error params.id).status = 404) ∧
    (∀ entry, queueFind q params.id = some entry →
      (entry.state = .merged →
        LoopDomain.merge q g pid params =
          (.error (ApiError.precondition_failed
            ("Loop " ++ sq ++ params.id ++ sq ++ " is already merged")), q) ∧
        (ApiError.precondition_failed
          ("Loop " ++ sq ++ params.id ++ sq ++ " is already merged")).status = 412) ∧
      (entry.state = .discarded →
        LoopDomain.merge q g pid params =
          (.error (ApiError.precondition_failed
            ("Loop " ++ sq ++ params.id ++ sq ++ " is discarded")), q) ∧
        (ApiError.precondition_failed
          ("Loop " ++ sq ++ params.id ++ sq ++ " is discarded")).status = 412) ∧
      (entry.state = .merging → params.force.getD false = false →
        LoopDomain.merge q g pid params =
          (.error (ApiError.precondition_failed
            ("Loop " ++ sq ++ params.id ++ sq ++
              " is currently merging. Use force=true to override.")), q) ∧
        (ApiError.precondition_failed
          ("Loop " ++ sq ++ params.id ++ sq ++
            " is currently merging. Use force=true to override.")).status = 412) ∧
      (entry.state = .merging → params.force.getD false = true →
        (LoopDomain.merge q g pid params).1 = .ok () ∧
        queueFind (LoopDomain.merge q g pid params).2 params.id =
          some { entry with
            state := .merged
            mergeCommit := some (current_commit g) }) ∧
      ((entry.state = .queued ∨ entry.state = .needsReview) →
        (LoopDomain.merge q g pid params).1 = .ok () ∧
        queueFind (LoopDomain.merge q g pid params).2 params.id =
          some { entry with
            state := .merged
            pid := some pid
            mergeCommit := some (current_commit g) })) ∧
    (current_commit none = "manual" ∧ current_commit (some "") = "manual") := by
  refine ⟨?_, ?_, by simp [current_commit], by simp [current_commit]⟩
  · intro hfind
    unfold LoopDomain.merge
    rw [hfind]
    exact ⟨rfl, rfl⟩
  · intro entry hfind
    obtain ⟨lid, pr, st, mc, wp, pd⟩ := entry
    refine ⟨?_, ?_, ?_, ?_, ?_⟩
    · intro hstate
      dsimp only at hstate
      subst hstate
      unfold LoopDomain.merge
      rw [hfind]
      exact ⟨rfl, rfl⟩
    · intro hstate
      dsimp only at hstate
      subst hstate
      unfold LoopDomain.merge
      rw [hfind]
      exact ⟨rfl, rfl⟩
    · intro hstate hforce
      dsimp only at hstate
      subst hstate
      unfold LoopDomain.merge
      rw [hfind]
      dsimp only
      rw [hforce]
      rw [if_pos (by decide)]
      exact ⟨rfl, rfl⟩
    · intro hstate hforce
      dsimp only at hstate
      subst hstate
      unfold LoopDomain.merge
      rw [hfind]
      dsimp only
      rw [hforce]
      rw [if_neg (by decide)]
      rw [if_neg (by decide)]
      refine ⟨rfl, ?_⟩
      simp [mark_merged, queueFind_queueModify, hfind]
    · intro hor
      have hst : st = MergeState.queued ∨ st = MergeState.needsReview := by
        simpa using hor
      unfold LoopDomain.merge
      rw [hfind]
      rcases hst with hstate | hstate
      all_goals
        subst hstate
        dsimp only
        rw [if_neg (by simp)]
        rw [if_pos (by decide)]
        refine ⟨rfl, ?_⟩
        simp [mark_merged, mark_merging, queueFind_queueModify, hfind]

/-- C7 witness: merging a Queued entry succeeds and leaves it Merged with
the workspace fingerprint and the caller pid. -/
theorem c7_merge_spec_witness :
    (LoopDomain.merge ⟨[("l1", ⟨"l1", "p", .queued, none, none, none⟩)]⟩
        (some "abc123") 7 ⟨"l1", none⟩).1 = .ok () ∧
    queueFind (LoopDomain.merge ⟨[("l1", ⟨"l1", "p", .queued, none, none, none⟩)]⟩
        (some "abc123") 7 ⟨"l1", none⟩).2 "l1" =
      some ⟨"l1", "p", .merged, some "abc123", none, some 7⟩ := by
  have h := ((c7_merge_spec ⟨[("l1", ⟨"l1", "p", .queued, none, none, none⟩)]⟩
      (some "abc123") 7 ⟨"l1", none⟩).2.1
      ⟨"l1", "p", .queued, none, none, none⟩ (by decide)).2.2.2.2
      (Or.inl rfl)
  exact h

end RalphApi
